import Mathlib

/-!
Verification of the interactive structured-text viewer of the `api-tool`
repository (files `display.py` and `lines_display.py`) against its
natural-language specification.

The Python code is shallowly embedded: Python `str` becomes `List Char`,
Python `int` becomes `Int` (or `Nat` where the source value is a string
index), Python `None` becomes `Option.none`, list mutation becomes explicit
state passing, and operations that can raise an exception return `Option`
or `Except` with `none`/`.error` at exactly the places the Python would
raise.  Each definition is annotated with the source function it embeds.
-/

namespace ApiTool

/-! ## Python string primitives

Python whitespace for `str.lstrip` / `str.rstrip` and the regex class `\s`
(the inputs in this development only ever contain the ASCII space, so the
ASCII whitespace set is a faithful model here). -/

def isPySpace (c : Char) : Bool :=
  c = ' ' || c = '\t' || c = '\n' || c = '\r' || c = '\x0b' || c = '\x0c'

/-- Python `s.lstrip()`. -/
def pyLstrip (s : List Char) : List Char := s.dropWhile isPySpace

/-- Python `s.rstrip()`. -/
def pyRstrip (s : List Char) : List Char :=
  (s.reverse.dropWhile isPySpace).reverse

/-- Python slice `s[a:b]` for `Int` bounds: negative indices count from the
end, then both bounds clamp to `[0, len]`. -/
def pySlice (s : List Char) (a b : Int) : List Char :=
  let len : Int := s.length
  let a2 : Int := max 0 (min len (if a < 0 then len + a else a))
  let b2 : Int := max 0 (min len (if b < 0 then len + b else b))
  (s.take b2.toNat).drop a2.toNat

/-- Python slice `s[a:]`. -/
def pySliceFrom (s : List Char) (a : Int) : List Char := pySlice s a s.length

/-- Python slice `s[:b]`. -/
def pySliceTo (s : List Char) (b : Int) : List Char := pySlice s 0 b

/-- Shorthand used throughout: Lean string literal to the `List Char` model. -/
def str2l (s : String) : List Char := s.toList

/-! ## Span & Color engine (`display.py`, class `Line`)

A color breakpoint is a pair `(position, curses color-pair id)`; the type
`Color` in the source is `Tuple[int, int]`, so both components are `Int`. -/

abbrev Color := Int × Int

/-- Stable insertion of `x` into `l` after every element whose key
(first component) is `≤ x`'s key.  Together with `pySort` this models
Python's stable `sorted(colors, key=lambda tup: tup[0])`. -/
def insertAfterEq (x : Color) : List Color → List Color
  | [] => [x]
  | y :: ys => if y.1 ≤ x.1 then y :: insertAfterEq x ys else x :: y :: ys

/-- Python `sorted(colors, key=lambda tup: tup[0])`: a stable sort on the
first component, realized as left-to-right insertion after equal keys. -/
def pySort (l : List Color) : List Color :=
  l.foldl (fun acc x => insertAfterEq x acc) []

/-- Python `[c[1] for c in colors if c[0] <= k][-1]`, with `none` where the
`[-1]` indexing would raise `IndexError` (empty comprehension result). -/
def prevColorOf (colors : List Color) (k : Int) : Option Int :=
  ((colors.filter (fun c => c.1 ≤ k)).map Prod.snd).getLast?

/-- `Line.add_color_span(self, colors, color_i, start, w)` from `display.py`.
The method reads nothing from `self` and rebinds `colors` to a fresh list
before the `+=`, so it is a pure function of its arguments.  The
`try/except IndexError` around the `[-1]` lookup is the `none` branch of
`prevColorOf`. -/
def addColorSpan (colors : List Color) (color_i start w : Int) : List Color :=
  match prevColorOf colors (start + w) with
  | some prev =>
      pySort ((colors.filter (fun x => x.1 ≠ start)) ++
        [(start, color_i), (start + w, prev)])
  | none =>
      -- except IndexError: prev_color = 1; colors = [(0, prev_color)] + colors
      pySort (((((0 : Int), (1 : Int)) :: colors).filter (fun x => x.1 ≠ start)) ++
        [(start, color_i), (start + w, (1 : Int))])

/-- Variant of `addColorSpan` that makes the exception behaviour explicit:
the only fallible primitive in the body is the `[-1]` list indexing, and the
source wraps exactly that in `try/except IndexError`, so every input maps to
`.ok`.  Uncaught exceptions would surface as `.error`. -/
def addColorSpanE (colors : List Color) (color_i start w : Int) :
    Except String (List Color) :=
  match prevColorOf colors (start + w) with
  | some prev =>
      .ok (pySort ((colors.filter (fun x => x.1 ≠ start)) ++
        [(start, color_i), (start + w, prev)]))
  | none =>
      -- the IndexError raised by `[-1]` is caught by the except clause
      .ok (pySort (((((0 : Int), (1 : Int)) :: colors).filter (fun x => x.1 ≠ start)) ++
        [(start, color_i), (start + w, (1 : Int))]))

/-- The effective style at a column of a breakpoint list: the style of the
last breakpoint at or before the column, defaulting to curses pair 1 where
none is.  This is exactly the `prev_color` lookup the source performs
(`[c[1] for c in colors if c[0] <= k][-1]` with the `except` default 1), and
on the key-sorted lists the program stores it is the style the paint loop of
`Line.draw` applies at that column. -/
def styleAt (colors : List Color) (col : Int) : Int :=
  (prevColorOf colors col).getD 1

/-! ## Data model (`display.py`: `JsonType`, `JsonAnnotation`, `JsonEntity`, `Line`)

`JsonEntity` subclasses `JsonAnnotation` in the source, adding `pair_idx`,
`child_count` and `collapsed`; the embedding flattens the hierarchy into one
structure with an `isEntity` discriminator (the subclass fields keep their
constructor defaults on plain annotations, which the source never reads
there).  `pair_idx` is `Option Nat` because the source initializes it to
`None` for starts and empty containers. -/

inductive JsonType where
  | objStart | objEnd | arrStart | arrEnd | empty
  | string | number | bool | null
deriving DecidableEq, Repr

structure JsonAnnotation where
  type : JsonType
  key : Option (Nat × Nat)
  value : Nat × Nat
  color : Int
  hidden : Int
  isEntity : Bool
  pair_idx : Option Nat
  child_count : Nat
  collapsed : Bool
deriving DecidableEq, Repr

/-- `JsonAnnotation.__init__`: color 3, hidden 0. -/
def mkJsonAnn (t : JsonType) (key : Option (Nat × Nat)) (value : Nat × Nat) :
    JsonAnnotation :=
  { type := t, key := key, value := value, color := 3, hidden := 0,
    isEntity := false, pair_idx := none, child_count := 0, collapsed := false }

/-- `JsonEntity.__init__`: color 8, child_count 0, collapsed False. -/
def mkJsonEntity (t : JsonType) (key : Option (Nat × Nat)) (value : Nat × Nat)
    (pair_idx : Option Nat) : JsonAnnotation :=
  { mkJsonAnn t key value with color := 8, isEntity := true, pair_idx := pair_idx }

/-- `JsonAnnotation.collapsible`. -/
def collapsible (a : JsonAnnotation) : Bool :=
  a.type = JsonType.objStart || a.type = JsonType.arrStart

/-- `Line`: raw text, color breakpoints, optional structural annotation,
row index (initially `None`), horizontal offset. -/
structure LineS where
  s : List Char
  colors : List Color
  json : Option JsonAnnotation
  row : Option Nat
  offset : Int
deriving DecidableEq, Repr

/-- `Line(s)` with the default arguments (`row=None`, `colors=None → []`). -/
def mkLine (s : List Char) : LineS :=
  { s := s, colors := [], json := none, row := none, offset := 0 }

/-- `Line.increase_offset(self, scr_w)`: a no-op on unannotated lines,
otherwise `offset = min(max(0, len(s) - scr_w + 3), offset + 10)`. -/
def increaseOffset (line : LineS) (scr_w : Int) : LineS :=
  match line.json with
  | none => line
  | some _ =>
      { line with offset := min (max 0 ((line.s.length : Int) - scr_w + 3)) (line.offset + 10) }

/-- `Line.decrease_offset(self)`: `offset = max(0, offset - 10)`. -/
def decreaseOffset (line : LineS) : LineS :=
  { line with offset := max 0 (line.offset - 10) }

/-! ## Render engine (`display.py`, `Line.draw`)

The embedding tracks Python object aliasing explicitly: the local variable
`colors` starts out as a reference to the stored list `self.colors`
(`aliased = true`); every rebinding to a freshly built list
(`colors = [(0, 1)]`, `colors = self.add_color_span(...)` — `add_color_span`
always rebinds its argument to a fresh list before its `+=`, so its result
is never the stored list) clears the flag; the single in-place update in the
body (`colors[i] = ...` in the string-elision branch) writes through to the
stored `Line.colors` exactly when the flag is still set at that point.  The
returned `line` is the object the caller's reference sees after the call. -/

structure DrawCall where
  row : Int
  col : Int
  text : List Char
  colorPair : Int
deriving DecidableEq, Repr

structure DrawRes where
  line : LineS
  calls : List DrawCall
deriving DecidableEq, Repr

/-- Python `'{0}'.format(n)` for a non-negative count. -/
def pyFormatNat (n : Nat) : List Char := (Nat.repr n).toList

/-- The final painting loop of `Line.draw` (lines 120-127): walk the
breakpoints, clip to the viewport width, and emit one `scr.addstr` call per
non-empty segment.  An empty breakpoint list would raise `IndexError` at
`colors[0]` in the source; it is unreachable because `draw` replaces an
empty list with `[(0, 1)]` and `add_color_span` never returns `[]`. -/
def drawPaint (srow w : Int) (s : List Char) (colors : List Color) : List DrawCall :=
  match colors with
  | [] => []
  | c0 :: rest =>
      let step := rest.foldl
        (fun (st : List DrawCall × Int × Int) cn =>
          let nextCol := min cn.1 w
          let acc :=
            if nextCol > st.2.1 then
              st.1 ++ [{ row := srow, col := st.2.1, text := pySlice s st.2.1 nextCol,
                         colorPair := st.2.2 }]
            else st.1
          (acc, nextCol, cn.2))
        ([], c0.1, c0.2)
      step.1 ++
        (if step.2.1 < w then
          [{ row := srow, col := step.2.1, text := pySliceFrom s step.2.1,
             colorPair := step.2.2 }]
         else [])

/-- `Line.draw(self, scr, row, w, cursor_span=None)` (lines 73-127). -/
def drawLine (line : LineS) (srow w : Int) (cursor_span : Option (Nat × Nat)) : DrawRes :=
  -- colors = self.colors  (a reference to the stored list)
  let colors0 : List Color := line.colors
  let (colors1, aliased1) :=
    if colors0.length = 0 then ([((0 : Int), (1 : Int))], false) else (colors0, true)
  let s1 : List Char := line.s
  -- collapsed-container summary / expanded-array running count (lines 82-95)
  let (s2, colors2, aliased2) :=
    match line.json with
    | some a =>
        if a.type = JsonType.arrStart ∨ a.type = JsonType.objStart then
          let pre := pySliceTo s1 (a.value.1 : Int)
          if a.collapsed then
            let suf : List Char :=
              if a.type = JsonType.arrStart then
                str2l "[ … count: " ++ pyFormatNat a.child_count ++ str2l " ]"
              else str2l "{ … }"
            let sA := pre ++ suf
            let cA := addColorSpan colors1 9 ((pre.length : Int) + 2) ((suf.length : Int) - 4)
            let cB := addColorSpan cA a.color ((pre.length : Int) + (suf.length : Int) - 1) 1
            (sA, cB, false)
          else if a.type = JsonType.arrStart then
            let suf := str2l "[ count: " ++ pyFormatNat a.child_count
            (pre ++ suf,
             addColorSpan colors1 9 ((pre.length : Int) + 1) ((suf.length : Int) - 1),
             false)
          else (s1, colors1, aliased1)
        else (s1, colors1, aliased1)
    | none => (s1, colors1, aliased1)
  -- string elision for a non-zero horizontal offset (lines 98-105)
  let (s3, colors3, lineAfter) :=
    match line.json with
    | some a =>
        if a.type = JsonType.string ∧ line.offset ≠ 0 then
          let pre := pySliceTo s2 ((a.value.1 : Int) + 1)
          let sA := pre ++ str2l "[…]" ++ pySliceFrom s2 ((a.value.1 : Int) + 1 + line.offset)
          -- `colors = self.add_color_span(colors, 5, len(prefix), 3)` rebinds
          -- `colors` to a fresh list, so the flag is cleared here ...
          let cA := addColorSpan colors2 5 (pre.length : Int) 3
          let aliasedA := false
          -- ... and the in-place loop `colors[i] = (...)` therefore does not
          -- reach the stored list (it would if the flag were still set).
          let cB := cA.map (fun (col : Color) =>
            if col.1 > (pre.length : Int) then
              (max (pre.length : Int) (col.1 - line.offset) + 3, col.2)
            else col)
          (sA, cB, if aliasedA then { line with colors := cB } else line)
        else (s2, colors2, line)
    | none => (s2, colors2, line)
  -- truncation (lines 108-110)
  let (s4, colors4) :=
    if (s3.length : Int) > w then
      let sA := pySliceTo s3 (w - 3) ++ str2l "[…]"
      (sA, addColorSpan colors3 5 ((sA.length : Int) - 3) 3)
    else (s3, colors3)
  -- padding (line 114)
  let s5 := s4 ++ List.replicate (w - (s4.length : Int)).toNat ' '
  -- cursor overlay (lines 116-117)
  let colors5 :=
    match cursor_span with
    | some cs => addColorSpan colors4 2 (cs.1 : Int) ((cs.2 : Int) - (cs.1 : Int))
    | none => colors4
  { line := lineAfter, calls := drawPaint srow w s5 colors5 }

/-! ## Plain-text append (`lines_display.py`, `print`, lines 33-44)

`PrintState` carries the `started` flag because `print` lazily calls
`start()`, which resets the buffer, before appending. -/

def pyIsLineBreak (c : Char) : Bool :=
  c = '\n' || c = '\r' || c = '\x0b' || c = '\x0c' ||
  c = Char.ofNat 0x1c || c = Char.ofNat 0x1d || c = Char.ofNat 0x1e ||
  c = Char.ofNat 0x85 || c = Char.ofNat 0x2028 || c = Char.ofNat 0x2029

def pySplitlinesAux : Bool → List Char → List Char → List (List Char)
  | _, cur, [] => if cur.isEmpty then [] else [cur.reverse]
  | skipNL, cur, c :: rest =>
      -- a '\n' directly after a '\r' belongs to the same line boundary
      if skipNL && c = '\n' then pySplitlinesAux false cur rest
      else if c = '\r' then cur.reverse :: pySplitlinesAux true [] rest
      else if pyIsLineBreak c then cur.reverse :: pySplitlinesAux false [] rest
      else pySplitlinesAux false (c :: cur) rest

/-- Python `s.splitlines()`. -/
def pySplitlines (s : List Char) : List (List Char) := pySplitlinesAux false [] s

structure PrintState where
  started : Bool
  content : List LineS
deriving DecidableEq, Repr

/-- `LinesDisplay.start` restricted to the buffer state: marks the display
started and clears the buffer (`self.content = []`). -/
def lsStart (_st : PrintState) : PrintState := { started := true, content := [] }

/-- `LinesDisplay.print(self, s, flush=True)` restricted to its effect on
the buffer (the trailing `self.draw()` only repaints). -/
def lsPrint (st : PrintState) (s : List Char) (flush : Bool) : PrintState :=
  let st1 := if st.started then st else lsStart st
  let newLines := (pySplitlines s).map mkLine
  match newLines, st1.content with
  | firstNew :: restNew, _ :: _ =>
      if flush then { st1 with content := st1.content ++ newLines }
      else
        -- merge the last line and the first of the new lines
        let merged := mkLine (((st1.content.getLast?).getD (mkLine [])).s ++ firstNew.s)
        { st1 with content := (st1.content.dropLast ++ [merged]) ++ restNew }
  | _, _ => { st1 with content := st1.content ++ newLines }

/-! ## Structural annotator (`lines_display.py`, `print_json`, lines 48-145)

The key-value pattern is `re.match(r'\s*?(\".*?\")(\s?:\s?)(.*?)$', line)`.
Its backtracking semantics on a single line (no newline characters):
`\s*?` is lazy and can only consume whitespace, so group 1's opening quote
must be the first non-whitespace character of the line; `.*?` is lazy with
backtracking, so group 1's closing quote is the EARLIEST quote after the
opening one that is followed by a match of `\s?:\s?` (at most one
whitespace, a colon, at most one whitespace, both `\s?` greedy); `(.*?)$`
then captures the entire remainder of the line.  Note the regex knows
nothing about JSON escape sequences, so a key containing `\"` can close
group 1 early. -/

/-- Scan `start, start+1, ...` (`cnt` candidates) for the first index
satisfying `cond`. -/
def findFirstFrom (cond : Nat → Bool) (start : Nat) : Nat → Option Nat
  | 0 => none
  | n + 1 => if cond start then some start else findFirstFrom cond (start + 1) n

/-- End position of a match of `\s?:\s?` starting at `i`, or `none`. -/
def sepEnd (l : List Char) (i : Nat) : Option Nat :=
  let colonPos : Option Nat :=
    match l.get? i with
    | some c =>
        if isPySpace c then (if l.get? (i + 1) = some ':' then some (i + 1) else none)
        else if c = ':' then some i else none
    | none => none
  colonPos.map (fun cp =>
    match l.get? (cp + 1) with
    | some c => if isPySpace c then cp + 2 else cp + 1
    | none => cp + 1)

/-- The key-value regex match: returns the spans of group 1 (the quoted key)
and group 3 (the value token), or `none` when the pattern does not match. -/
def kvMatch (l : List Char) : Option ((Nat × Nat) × (Nat × Nat)) :=
  let p := l.length - (pyLstrip l).length
  if l.get? p = some '"' then
    match findFirstFrom
        (fun q => decide (l.get? q = some '"') && (sepEnd l (q + 1)).isSome)
        (p + 1) (l.length - (p + 1)) with
    | some q =>
        match sepEnd l (q + 1) with
        | some e => some ((p, q + 1), (e, l.length))
        | none => none
    | none => none
  else none

structure AnnState where
  lines : List LineS
  stack : List Nat
  content : List LineS
deriving DecidableEq, Repr

/-- The child-count scan over `lines[entity_start:i]` (source lines 98-104):
count lines indented exactly four columns deeper than the start line,
skipping lines that begin with a closing bracket.  `none` models the
`IndexError` the source raises at `lstripped[0]` on an all-whitespace line. -/
def childCountScan (startIndent : Nat) : List LineS → Option Nat
  | [] => some 0
  | l :: rest =>
      match pyLstrip l.s with
      | [] => none
      | c :: _ =>
          (childCountScan startIndent rest).map (fun n =>
            if c = ']' ∨ c = '}' then n
            else if l.s.length - (pyLstrip l.s).length = startIndent + 4 then n + 1
            else n)

/-- Shared tail of one annotation-loop iteration (source lines 120-140):
attach the annotation, optionally merge with the previous display line when
`i == 0` and `flush` is false (shifting the spans), then add the default
key/value color spans and append the line. -/
def finishLine (flush : Bool) (i : Nat) (line : LineS) (ann : JsonAnnotation)
    (st : AnnState) : AnnState :=
  let (line2, st2) :=
    if i = 0 ∧ flush = false ∧ st.content ≠ [] then
      match st.content.getLast? with
      | some oldLine =>
          let shift := oldLine.s.length
          let ann2 := { ann with
            key := ann.key.map (fun ks => (ks.1 + shift, ks.2 + shift)),
            value := (ann.value.1 + shift, ann.value.2 + shift) }
          ({ line with s := oldLine.s ++ line.s, json := some ann2 },
           { st with content := st.content.dropLast })
      | none => ({ line with json := some ann }, st)
    else ({ line with json := some ann }, st)
  let a := (line2.json).getD ann
  let colors1 :=
    addColorSpan line2.colors a.color (a.value.1 : Int) ((a.value.2 : Int) - (a.value.1 : Int))
  let colors2 :=
    match a.key with
    | some ks => addColorSpan colors1 7 (ks.1 : Int) ((ks.2 : Int) - (ks.1 : Int))
    | none => colors1
  { st2 with lines := st2.lines ++ [{ line2 with colors := colors2 }] }

/-- One iteration of the annotation loop (source lines 56-140) for local line
index `i`.  `none` marks every input on which the Python body raises
(`IndexError` from `value[-1]` or `stack.pop()` or `lstripped[0]`,
`AttributeError` from a `None` annotation on a popped start line). -/
def annotateLine (flush : Bool) (numExisting : Nat) (i : Nat) (lineStr : List Char)
    (st : AnnState) : Option AnnState :=
  let line := mkLine lineStr
  let unindented := pyLstrip lineStr
  if unindented.length = 0 then
    some { st with lines := st.lines ++ [line] }
  else
    let spans : Option (Nat × Nat) × (Nat × Nat) :=
      match kvMatch lineStr with
      | some (ks, vs) => (some ks, vs)
      | none =>
          (none, (lineStr.length - unindented.length, max 0 (pyRstrip lineStr).length))
    let key_span := spans.1
    let vspan0 := spans.2
    let value0 := (lineStr.take vspan0.2).drop vspan0.1
    match value0.getLast? with
    | none => none
    | some lastc =>
      let vp : List Char × (Nat × Nat) :=
        if lastc = ',' then (value0.dropLast, (vspan0.1, vspan0.2 - 1)) else (value0, vspan0)
      let value := vp.1
      let value_span := vp.2
      if value = ['['] then
        some (finishLine flush i line (mkJsonEntity .arrStart key_span value_span none)
          { st with stack := i :: st.stack })
      else if value = ['{'] then
        some (finishLine flush i line (mkJsonEntity .objStart key_span value_span none)
          { st with stack := i :: st.stack })
      else if value = [']'] then
        match st.stack with
        | [] => none
        | entityStart :: restStack =>
            match st.lines.get? entityStart with
            | none => none
            | some startLine =>
              match startLine.json with
              | none => none
              | some startAnn =>
                let startIndent := startLine.s.length - (pyLstrip startLine.s).length
                match childCountScan startIndent
                    ((st.lines.drop entityStart).take (i - entityStart)) with
                | none => none
                | some cc =>
                    let newAnn :=
                      { startAnn with pair_idx := some (i + numExisting), child_count := cc }
                    let newStart := { startLine with json := some newAnn }
                    some (finishLine flush i line
                      (mkJsonEntity .arrEnd key_span value_span (some entityStart))
                      { st with lines := st.lines.set entityStart newStart,
                                stack := restStack })
      else if value = ['}'] then
        match st.stack with
        | [] => none
        | entityStart :: restStack =>
            match st.lines.get? entityStart with
            | none => none
            | some startLine =>
              match startLine.json with
              | none => none
              | some startAnn =>
                let newAnn := { startAnn with pair_idx := some (i + numExisting) }
                let newStart := { startLine with json := some newAnn }
                some (finishLine flush i line
                  (mkJsonEntity .objEnd key_span value_span (some entityStart))
                  { st with lines := st.lines.set entityStart newStart,
                            stack := restStack })
      else if value = str2l "[]" ∨ value = str2l "{}" then
        some (finishLine flush i line (mkJsonEntity .empty key_span value_span none) st)
      else if value = str2l "null" then
        some (finishLine flush i line (mkJsonAnn .null key_span value_span) st)
      else if value = str2l "true" ∨ value = str2l "false" then
        some (finishLine flush i line (mkJsonAnn .bool key_span value_span) st)
      else
        match value with
        | [] => none   -- `value[0]` raises IndexError on an empty post-trim value
        | c :: _ =>
            if c = '"' ∧ value.getLast? = some '"' then
              some (finishLine flush i line (mkJsonAnn .string key_span value_span) st)
            else
              some (finishLine flush i line (mkJsonAnn .number key_span value_span) st)

def annotateLoop (flush : Bool) (numExisting : Nat) :
    Nat → List (List Char) → AnnState → Option AnnState
  | _, [], st => some st
  | i, l :: ls, st =>
      match annotateLine flush numExisting i l st with
      | none => none
      | some st2 => annotateLoop flush numExisting (i + 1) ls st2

/-- `LinesDisplay.print_json` restricted to its effect on the buffer, taking
the serialized text as a list of lines (`as_str.splitlines()`).  After the
loop the buffer gains the annotated lines and every buffer line gets its row
index reassigned (source lines 142-144). -/
def printJsonLines (content : List LineS) (strs : List (List Char)) (flush : Bool) :
    Option (List LineS) :=
  match annotateLoop flush content.length 0 strs
      { lines := [], stack := [], content := content } with
  | none => none
  | some st =>
      some ((st.content ++ st.lines).mapIdx (fun idx l => { l with row := some idx }))

/-! ## Model of `json.dumps(obj, indent=4)`

`json.dumps` is Python standard-library code, modelled here from its
documented behaviour: scalars are rendered inline; non-empty containers
put the opening bracket on the current line, each item on its own line
indented one extra level (4 columns), a comma appended to the last line of
every item except the final one, and the closing bracket on its own line at
the container's level; strings are quoted with JSON escaping
(`ensure_ascii=True`). -/

inductive JsonVal where
  | null
  | bool (b : Bool)
  | num (n : Int)
  | str (s : List Char)
  | arr (vs : List JsonVal)
  | obj (kvs : List (List Char × JsonVal))
deriving Repr

def hex4 (n : Nat) : List Char :=
  let ds := Nat.toDigits 16 n
  List.replicate (4 - ds.length) '0' ++ ds

def escChar (c : Char) : List Char :=
  if c = '"' then ['\\', '"']
  else if c = '\\' then ['\\', '\\']
  else if c = '\n' then ['\\', 'n']
  else if c = '\t' then ['\\', 't']
  else if c = '\r' then ['\\', 'r']
  else if c = Char.ofNat 8 then ['\\', 'b']
  else if c = Char.ofNat 12 then ['\\', 'f']
  else if c.toNat < 0x20 ∨ c.toNat > 0x7e then
    if c.toNat ≤ 0xffff then '\\' :: 'u' :: hex4 c.toNat
    else
      let v := c.toNat - 0x10000
      ('\\' :: 'u' :: hex4 (0xd800 + v / 0x400)) ++ ('\\' :: 'u' :: hex4 (0xdc00 + v % 0x400))
  else [c]

def dumpStr (s : List Char) : List Char := '"' :: (s.map escChar).flatten ++ ['"']

def dumpInt (n : Int) : List Char :=
  if n < 0 then '-' :: Nat.toDigits 10 n.natAbs else Nat.toDigits 10 n.toNat

def indentSp (lvl : Nat) : List Char := List.replicate (4 * lvl) ' '

def addCommaLast : List (List Char) → List (List Char)
  | [] => []
  | [l] => [l ++ [',']]
  | l :: ls => l :: addCommaLast ls

mutual
/-- Lines of `json.dumps(v, indent=4)` for a value whose first line continues
the current output position (so carries no indentation of its own) and whose
closing bracket, if any, is indented at level `lvl`. -/
def dLines : JsonVal → Nat → List (List Char)
  | .null, _ => [str2l "null"]
  | .bool true, _ => [str2l "true"]
  | .bool false, _ => [str2l "false"]
  | .num n, _ => [dumpInt n]
  | .str s, _ => [dumpStr s]
  | .arr [], _ => [str2l "[]"]
  | .arr (v :: vs), lvl => ['['] :: (dItems (v :: vs) (lvl + 1) ++ [indentSp lvl ++ [']']])
  | .obj [], _ => [str2l "{}"]
  | .obj (kv :: kvs), lvl => ['{'] :: (dEntries (kv :: kvs) (lvl + 1) ++ [indentSp lvl ++ ['}']])

/-- Array items at indentation level `lvl`, comma-joined. -/
def dItems : List JsonVal → Nat → List (List Char)
  | [], _ => []
  | [v], lvl =>
      (match dLines v lvl with
       | [] => []
       | h :: t => (indentSp lvl ++ h) :: t)
  | v :: vs, lvl =>
      addCommaLast
        (match dLines v lvl with
         | [] => []
         | h :: t => (indentSp lvl ++ h) :: t) ++ dItems vs lvl

/-- Object entries (`"key": value`) at indentation level `lvl`, comma-joined. -/
def dEntries : List (List Char × JsonVal) → Nat → List (List Char)
  | [], _ => []
  | [(k, v)], lvl =>
      (match dLines v lvl with
       | [] => []
       | h :: t => (indentSp lvl ++ dumpStr k ++ str2l ": " ++ h) :: t)
  | (k, v) :: kvs, lvl =>
      addCommaLast
        (match dLines v lvl with
         | [] => []
         | h :: t => (indentSp lvl ++ dumpStr k ++ str2l ": " ++ h) :: t) ++ dEntries kvs lvl
end

def dumpsLines (v : JsonVal) : List (List Char) := dLines v 0

/-- `LinesDisplay.print_json(self, obj, flush=True)` restricted to its effect
on the buffer: serialize at indent 4, split into lines, run the annotation
loop, append, reindex rows.  `none` where the source raises. -/
def printJson (content : List LineS) (v : JsonVal) (flush : Bool) :
    Option (List LineS) :=
  printJsonLines content (dumpsLines v) flush

/-! ## Collapse bookkeeping (`lines_display.py`, `set_collapsed`, lines 254-267) -/

/-- `self.content[x].json.hidden += delta` for one row (no-op on a line
without an annotation, matching the `if self.content[x].json:` guard). -/
def bumpHiddenLine (delta : Int) (l : LineS) : LineS :=
  match l.json with
  | some a => { l with json := some { a with hidden := a.hidden + delta } }
  | none => l

/-- The loop `for x in range(lo, lo+cnt): ...` bumping `hidden`; `none`
models the `IndexError` when an index reaches past the buffer. -/
def bumpHiddenRange (content : List LineS) (lo cnt : Nat) (delta : Int) :
    Option (List LineS) :=
  match cnt with
  | 0 => some content
  | n + 1 =>
      match content.get? lo with
      | none => none
      | some l => bumpHiddenRange (content.set lo (bumpHiddenLine delta l)) (lo + 1) n delta

/-- `line.json.collapsed = collapsed` on a line whose annotation is `ann`:
the line with its annotation's collapsed flag overwritten. -/
def toggleLine (line : LineS) (ann : JsonAnnotation) (b : Bool) : LineS :=
  { line with json := some { ann with collapsed := b } }

/-- `LinesDisplay.set_collapsed(self, line_num, collapsed)` restricted to the
buffer (the trailing `self.draw()` only repaints).  Note the source applies
`-1` to `hidden` when collapsing and `+1` when expanding.  `none` models the
raises: `IndexError` on an out-of-range `line_num`, `TypeError` when `row` or
`pair_idx` is `None`, `IndexError` from the loop. -/
def setCollapsed (content : List LineS) (line_num : Nat) (collapsed : Bool) :
    Option (List LineS) :=
  match content.get? line_num with
  | none => none
  | some line =>
    match line.json with
    | none => some content
    | some ann =>
      if collapsible ann = false then some content
      else if ann.collapsed = collapsed then some content
      else
        match line.row, ann.pair_idx with
        | some r, some e =>
            bumpHiddenRange (content.set line_num (toggleLine line ann collapsed))
              (r + 1) (e + 1 - (r + 1))
              (if collapsed then -1 else 1)
        | _, _ => none

/-- Observer: the hidden-depth of a line's annotation, if any. -/
def lineHidden (l : LineS) : Option Int := l.json.map JsonAnnotation.hidden

/-- Observer: the collapsed flag of a line's annotation, if any. -/
def lineCollapsed (l : LineS) : Option Bool := l.json.map JsonAnnotation.collapsed

/-! ## Viewport/navigation controller (`lines_display.py`) -/

inductive NavMode where
  | scroll | json
deriving DecidableEq, Repr

structure DisplayState where
  mode : NavMode
  top_row : Nat
  bottom_row : Nat
  content : List LineS
  cursor_row : Option Nat
deriving DecidableEq, Repr

/-- The filter of the structural-mode cursor scans (source lines 203, 219):
`content[i].json and (json.key or json.collapsible()) and not json.hidden`.
An out-of-range index yields `false` (such an index would raise in Python,
likewise selecting no cursor target). -/
def jsonCursorOk (content : List LineS) (i : Nat) : Bool :=
  match content.get? i with
  | some l =>
      match l.json with
      | some a => (a.key.isSome || collapsible a) && a.hidden == 0
      | none => false
  | none => false

/-- The filter of `cycle_mode`'s re-anchor scan (source line 233):
`content[i].json and (json.key or json.collapsible())` — it does not test
`hidden`. -/
def lineEligible (content : List LineS) (i : Nat) : Bool :=
  match content.get? i with
  | some l =>
      match l.json with
      | some a => a.key.isSome || collapsible a
      | none => false
  | none => false

/-- The filter of the plain-scroll scans (source lines 195, 199):
`content[i].json is None or not content[i].json.hidden`. -/
def plainRowOk (content : List LineS) (i : Nat) : Bool :=
  match content.get? i with
  | some l =>
      match l.json with
      | some a => a.hidden == 0
      | none => true
  | none => false

/-- Scan `k-1, k-2, ..., 0` for the first index satisfying `cond`
(Python `range(k-1, -1, -1)`). -/
def findRevFrom (cond : Nat → Bool) : Nat → Option Nat
  | 0 => none
  | k + 1 => if cond k then some k else findRevFrom cond k

/-- The generator expression in `scroll_json_up` (source lines 202-205). -/
def scrollJsonUpSel (content : List LineS) (cursor : Nat) : Option Nat :=
  findRevFrom (jsonCursorOk content) cursor

/-- The generator expression in `scroll_json_down` (source lines 218-221). -/
def scrollJsonDownSel (content : List LineS) (cursor : Nat) : Option Nat :=
  findFirstFrom (jsonCursorOk content) (cursor + 1) (content.length - (cursor + 1))

/-- `scroll_screen_up(1)` (source lines 193-195). -/
def scrollScreenUp1 (st : DisplayState) : DisplayState :=
  { st with top_row := (findRevFrom (plainRowOk st.content) st.top_row).getD st.top_row }

/-- `scroll_json_up` (source lines 201-215): move the cursor to the nearest
preceding eligible visible line, falling back to a plain screen scroll, then
pull `top_row` up to the cursor.  `none` models the `TypeError` on an unset
cursor. -/
def scrollJsonUp (st : DisplayState) : Option DisplayState :=
  match st.cursor_row with
  | none => none
  | some c =>
      let st2 :=
        match scrollJsonUpSel st.content c with
        | some p => { st with cursor_row := some p }
        | none => scrollScreenUp1 st
      match st2.cursor_row with
      | some c2 => some (if c2 < st2.top_row then { st2 with top_row := c2 } else st2)
      | none => some st2

def cursorInvalid (st : DisplayState) : Bool :=
  match st.cursor_row with
  | none => true
  | some c => c < st.top_row || c > st.bottom_row

/-- `LinesDisplay.cycle_mode` (source lines 230-242) restricted to mode and
cursor state: the trailing `set_footer_for_mode` and `draw` calls only touch
the footer text and `bottom_row`, never `cursor_row` or `mode`. -/
def cycleMode (st : DisplayState) : DisplayState :=
  match st.mode with
  | .scroll =>
      if cursorInvalid st then
        match findFirstFrom (lineEligible st.content) st.top_row
            (st.content.length - st.top_row) with
        | some i => { st with cursor_row := some i, mode := .json }
        | none => { st with cursor_row := none }
      else { st with mode := .json }
  | .json => { st with mode := .scroll }

/-! ## Concrete fixtures used by the witness and counterexample theorems -/

/-- A 20-character line with a string annotation (offset-clamp witness). -/
def offsetWitnessLine : LineS :=
  { s := str2l "aaaaaaaaaaaaaaaaaaaa", colors := [],
    json := some (mkJsonAnn JsonType.string none (0, 20)),
    row := none, offset := 0 }

/-- A started display whose buffer holds the single line `"a"`. -/
def printWitnessState : PrintState :=
  { started := true, content := [mkLine (str2l "a")] }

/-- The annotated buffer `print_json([1])` produces (written out). -/
def roundtripContent : List LineS :=
  [{ s := str2l "[", colors := [],
     json := some (mkJsonEntity JsonType.arrStart none (0, 1) (some 2)),
     row := some 0, offset := 0 },
   { s := str2l "    1", colors := [],
     json := some (mkJsonAnn JsonType.number none (4, 5)),
     row := some 1, offset := 0 },
   { s := str2l "]", colors := [],
     json := some (mkJsonEntity JsonType.arrEnd none (0, 1) (some 0)),
     row := some 2, offset := 0 }]

def roundtripC1 : List LineS := (setCollapsed roundtripContent 0 true).getD []

def roundtripC2 : List LineS := (setCollapsed roundtripC1 0 false).getD []

/-- An eligible (keyed) line whose hidden-depth is 1. -/
def hiddenEligLine : LineS :=
  { s := str2l "    \"k\": 1,", colors := [],
    json := some { mkJsonAnn JsonType.number (some (4, 7)) (9, 10) with hidden := 1 },
    row := some 0, offset := 0 }

/-- An eligible (keyed) visible line. -/
def visibleEligLine : LineS :=
  { s := str2l "    \"m\": 2", colors := [],
    json := some (mkJsonAnn JsonType.number (some (4, 7)) (9, 10)),
    row := some 1, offset := 0 }

/-- Plain-scroll state with an undefined cursor whose first eligible line at
the top row is hidden while a visible eligible line follows it. -/
def toggleStateCE : DisplayState :=
  { mode := NavMode.scroll, top_row := 0, bottom_row := 0,
    content := [hiddenEligLine, visibleEligLine], cursor_row := none }

/-- Observer used by the differential-validation theorems: the raw text, the
annotation's (kind, key span, value span, pair index, child count), and the
row. -/
def obsLine (l : LineS) :
    List Char ×
      Option (JsonType × Option (Nat × Nat) × (Nat × Nat) × Option Nat × Nat) ×
      Option Nat :=
  (l.s, l.json.map (fun a => (a.type, a.key, a.value, a.pair_idx, a.child_count)), l.row)

/-- The sortedness predicate used in the span-insertion proofs: breakpoint
keys are nondecreasing. -/
def KeySorted (l : List Color) : Prop := l.Pairwise (fun a b => a.1 ≤ b.1)


/-- Fixtures for the draw differential-validation theorems. -/
def drawLineArrExp : LineS :=
  { s := str2l "    \"b\": [",
    colors := [((0 : Int), (1 : Int)), ((9 : Int), (8 : Int)), ((10 : Int), (1 : Int))],
    json := some { mkJsonEntity JsonType.arrStart (some (4, 7)) (9, 10) none with
      child_count := 3 },
    row := some 2, offset := 0 }

def drawLineArrCol : LineS :=
  { drawLineArrExp with
    json := some { mkJsonEntity JsonType.arrStart (some (4, 7)) (9, 10) none with
      child_count := 3, collapsed := true } }

def drawLineStrOff : LineS :=
  { s := str2l "    \"k\": \"abcdefghijklmnopqrstuvwxyz0123456789\"",
    colors := [((0 : Int), (1 : Int)), ((9 : Int), (3 : Int)), ((44 : Int), (1 : Int))],
    json := some (mkJsonAnn JsonType.string (some (4, 7)) (9, 44)),
    row := some 1, offset := 10 }

def drawLineObjCol : LineS :=
  { s := str2l "\x7b", colors := [],
    json := some { mkJsonEntity JsonType.objStart none (0, 1) none with collapsed := true },
    row := some 5, offset := 0 }

/-! ### Lemmas about the sort and the span insertion -/

theorem mem_insertAfterEq {a x : Color} {l : List Color} :
    a ∈ insertAfterEq x l ↔ a = x ∨ a ∈ l := by
  induction l with
  | nil => simp [insertAfterEq]
  | cons y ys ih =>
      simp only [insertAfterEq]
      split
      · simp [ih]; tauto
      · simp only [List.mem_cons]

theorem mem_pySort_aux {a : Color} (l : List Color) (acc : List Color) :
    a ∈ l.foldl (fun acc x => insertAfterEq x acc) acc ↔ a ∈ acc ∨ a ∈ l := by
  induction l generalizing acc with
  | nil => simp
  | cons x xs ih =>
      simp only [List.foldl_cons, ih, mem_insertAfterEq, List.mem_cons]
      tauto

theorem mem_pySort {a : Color} {l : List Color} : a ∈ pySort l ↔ a ∈ l := by
  simpa using mem_pySort_aux l []

/-- `insertAfterEq` splits the list at the first key strictly above `x.1`. -/
theorem insertAfterEq_eq_takeDrop (x : Color) (l : List Color) :
    insertAfterEq x l =
      l.takeWhile (fun y => y.1 ≤ x.1) ++ x :: l.dropWhile (fun y => y.1 ≤ x.1) := by
  induction l with
  | nil => simp [insertAfterEq]
  | cons y ys ih =>
      by_cases h : y.1 ≤ x.1
      · simp [insertAfterEq, h, List.takeWhile_cons, List.dropWhile_cons, ih]
      · simp [insertAfterEq, h, List.takeWhile_cons, List.dropWhile_cons]

theorem keySorted_insertAfterEq {x : Color} {l : List Color}
    (h : KeySorted l) : KeySorted (insertAfterEq x l) := by
  induction l with
  | nil => simp [insertAfterEq, KeySorted]
  | cons y ys ih =>
      rcases (List.pairwise_cons.mp h) with ⟨hy, hys⟩
      by_cases hle : y.1 ≤ x.1
      · have htail := ih hys
        simp only [insertAfterEq, hle, if_pos]
        refine List.pairwise_cons.mpr ⟨?_, htail⟩
        intro b hb
        rcases mem_insertAfterEq.mp hb with rfl | hb2
        · exact hle
        · exact hy b hb2
      · simp only [insertAfterEq, hle, if_neg, Bool.false_eq_true, not_false_iff]
        refine List.pairwise_cons.mpr ⟨?_, h⟩
        intro b hb
        rcases List.mem_cons.mp hb with rfl | hb2
        · omega
        · have := hy b hb2
          omega

theorem keySorted_pySort_aux (l : List Color) (acc : List Color)
    (h : KeySorted acc) :
    KeySorted (l.foldl (fun acc x => insertAfterEq x acc) acc) := by
  induction l generalizing acc with
  | nil => simpa
  | cons x xs ih => exact ih _ (keySorted_insertAfterEq h)

theorem keySorted_pySort (l : List Color) : KeySorted (pySort l) :=
  keySorted_pySort_aux l [] (by simp [KeySorted])

theorem pySort_append_singleton (l : List Color) (x : Color) :
    pySort (l ++ [x]) = insertAfterEq x (pySort l) := by
  simp [pySort, List.foldl_append]

theorem dropWhile_gt_of_sorted {K : Int} {l : List Color} (h : KeySorted l) :
    ∀ y ∈ l.dropWhile (fun c => c.1 ≤ K), K < y.1 := by
  induction l with
  | nil => simp
  | cons a as ih =>
      rcases (List.pairwise_cons.mp h) with ⟨ha, has⟩
      by_cases hle : a.1 ≤ K
      · simp only [List.dropWhile_cons]
        rw [if_pos (by simpa using hle)]
        exact ih has
      · simp only [List.dropWhile_cons]
        rw [if_neg (by simpa using hle)]
        intro y hy
        rcases List.mem_cons.mp hy with rfl | hy2
        · omega
        · have := ha y hy2
          omega

theorem filter_takeWhile_le (K : Int) (l : List Color) :
    (l.takeWhile (fun c => c.1 ≤ K)).filter (fun c => c.1 ≤ K)
      = l.takeWhile (fun c => c.1 ≤ K) := by
  apply List.filter_eq_self.mpr
  intro a ha
  have := List.mem_takeWhile_imp ha
  simpa using this

/-- After inserting `(K, p)` into a key-sorted list, the last breakpoint at
key `≤ K` is exactly `(K, p)`. -/
theorem prevColorOf_insertAfterEq {K p : Int} {A : List Color}
    (hA : KeySorted A) :
    prevColorOf (insertAfterEq (K, p) A) K = some p := by
  have hsplit := insertAfterEq_eq_takeDrop (K, p) A
  unfold prevColorOf
  rw [hsplit]
  rw [List.filter_append, List.filter_cons]
  rw [if_pos (by simp)]
  have hdrop : (A.dropWhile (fun c => c.1 ≤ K)).filter (fun c => c.1 ≤ K) = [] := by
    apply List.filter_eq_nil_iff.mpr
    intro a ha
    have := dropWhile_gt_of_sorted hA a ha
    simpa using this
  rw [hdrop, filter_takeWhile_le]
  rw [List.map_append]
  simp

/-- The previous-style lookup on the output of `addColorSpan` recovers the
resumed style that was appended at `start + w`. -/
theorem prevColorOf_addColorSpan (colors : List Color) (c s w : Int) :
    prevColorOf (addColorSpan colors c s w) (s + w) =
      some ((prevColorOf colors (s + w)).getD 1) := by
  rcases h : prevColorOf colors (s + w) with _ | p
  · unfold addColorSpan
    rw [h]
    dsimp only
    rw [show (((((0 : Int), (1 : Int)) :: colors).filter (fun x => x.1 ≠ s)) ++
          [(s, c), (s + w, (1 : Int))]) =
        ((((((0 : Int), (1 : Int)) :: colors).filter (fun x => x.1 ≠ s)) ++
          [(s, c)]) ++ [(s + w, (1 : Int))]) by simp]
    rw [pySort_append_singleton]
    simpa using prevColorOf_insertAfterEq (K := s + w) (p := 1) (keySorted_pySort _)
  · unfold addColorSpan
    rw [h]
    dsimp only
    rw [show ((colors.filter (fun x => x.1 ≠ s)) ++ [(s, c), (s + w, p)]) =
        (((colors.filter (fun x => x.1 ≠ s)) ++ [(s, c)]) ++ [(s + w, p)]) by simp]
    rw [pySort_append_singleton]
    simpa using prevColorOf_insertAfterEq (K := s + w) (p := p) (keySorted_pySort _)

/-- Membership in the common shape of the `addColorSpan` result. -/
theorem mem_addColorSpan_core {B : List Color} {c s w p : Int} {a : Color} :
    a ∈ pySort ((B.filter (fun x => x.1 ≠ s)) ++ [(s, c), (s + w, p)]) ↔
      (a ∈ B ∧ a.1 ≠ s) ∨ a = (s, c) ∨ a = (s + w, p) := by
  rw [mem_pySort]
  simp [List.mem_filter, and_comm]

/-- Unfolding `addColorSpan` through a known previous-style lookup. -/
theorem addColorSpan_eq_of_prev (colors : List Color) (c s w p : Int)
    (h : prevColorOf colors (s + w) = some p) :
    addColorSpan colors c s w =
      pySort ((colors.filter (fun x => x.1 ≠ s)) ++ [(s, c), (s + w, p)]) := by
  unfold addColorSpan
  rw [h]

/-- Core of the idempotence argument: re-inserting the same two breakpoints
into the result neither adds nor removes set members. -/
theorem addColorSpan_idem_core {B R1 : List Color} {c s w p : Int}
    (hR1 : R1 = pySort ((B.filter (fun x => x.1 ≠ s)) ++ [(s, c), (s + w, p)]))
    (a : Color) :
    ((a ∈ R1 ∧ a.1 ≠ s) ∨ a = (s, c) ∨ a = (s + w, p)) ↔ a ∈ R1 := by
  constructor
  · rintro (⟨hmem, _⟩ | rfl | rfl)
    · exact hmem
    · rw [hR1, mem_addColorSpan_core]; tauto
    · rw [hR1, mem_addColorSpan_core]; tauto
  · intro hmem
    have hdec := hmem
    rw [hR1, mem_addColorSpan_core] at hdec
    rcases hdec with ⟨_, hne⟩ | h | h
    · exact Or.inl ⟨hmem, hne⟩
    · exact Or.inr (Or.inl h)
    · exact Or.inr (Or.inr h)

/-- C4: `add_color_span` is idempotent: applying the insertion twice with an
identical `(style, start, width)` argument triple yields the same breakpoint
set as applying it once.  (The operation reads nothing but its arguments —
it is a pure function in this embedding, mirroring that the source method
never touches `self`.) -/
theorem add_color_span_idempotent (colors : List Color) (c s w : Int) (a : Color) :
    a ∈ addColorSpan (addColorSpan colors c s w) c s w ↔
      a ∈ addColorSpan colors c s w := by
  have hprev := prevColorOf_addColorSpan colors c s w
  rw [addColorSpan_eq_of_prev (addColorSpan colors c s w) c s w _ hprev,
    mem_addColorSpan_core]
  rcases h1 : prevColorOf colors (s + w) with _ | p0
  · have hR1 : addColorSpan colors c s w =
        pySort (((((0 : Int), (1 : Int)) :: colors).filter (fun x => x.1 ≠ s)) ++
          [(s, c), (s + w, 1)]) := by
      unfold addColorSpan
      rw [h1]
    simp only [Option.getD_none]
    exact addColorSpan_idem_core hR1 a
  · have hR1 : addColorSpan colors c s w =
        pySort ((colors.filter (fun x => x.1 ≠ s)) ++ [(s, c), (s + w, p0)]) := by
      unfold addColorSpan
      rw [h1]
    simp only [Option.getD_some]
    exact addColorSpan_idem_core hR1 a

/-! ### Further sort lemmas, towards the zero-width no-op of `addColorSpan` -/

theorem insertAfterEq_eq_append {x : Color} {l : List Color}
    (h : ∀ y ∈ l, y.1 ≤ x.1) : insertAfterEq x l = l ++ [x] := by
  induction l with
  | nil => rfl
  | cons y ys ih =>
      simp only [insertAfterEq, List.cons_append]
      rw [if_pos (h y (by simp)), ih (fun z hz => h z (by simp [hz]))]

theorem insertAfterEq_append_left {x : Color} {T D : List Color}
    (hT : ∀ y ∈ T, y.1 ≤ x.1) :
    insertAfterEq x (T ++ D) = T ++ insertAfterEq x D := by
  induction T with
  | nil => rfl
  | cons y ys ih =>
      simp only [List.cons_append, insertAfterEq, List.append_eq]
      rw [if_pos (hT y (by simp)), ih (fun z hz => hT z (by simp [hz]))]

theorem pySort_eq_self {l : List Color} (h : KeySorted l) : pySort l = l := by
  induction l using List.reverseRecOn with
  | nil => rfl
  | append_singleton M x ih =>
      rcases List.pairwise_append.mp h with ⟨hM, _, hcross⟩
      rw [pySort_append_singleton, ih hM]
      exact insertAfterEq_eq_append (fun y hy => hcross y hy x (by simp))

theorem takeWhile_eq_filter_of_sorted {k : Int} {l : List Color}
    (h : KeySorted l) :
    l.takeWhile (fun y => y.1 ≤ k) = l.filter (fun y => y.1 ≤ k) := by
  induction l with
  | nil => rfl
  | cons y ys ih =>
      rcases List.pairwise_cons.mp h with ⟨hy, hys⟩
      by_cases hyk : y.1 ≤ k
      · rw [List.takeWhile_cons, List.filter_cons,
          if_pos (by simpa using hyk), if_pos (by simpa using hyk), ih hys]
      · rw [List.takeWhile_cons, List.filter_cons,
          if_neg (by simpa using hyk), if_neg (by simpa using hyk)]
        symm
        apply List.filter_eq_nil_iff.mpr
        intro a ha
        have h2 := hy a ha
        simp only [decide_eq_true_eq]
        omega

theorem dropWhile_eq_filter_of_sorted {k : Int} {l : List Color}
    (h : KeySorted l) :
    l.dropWhile (fun y => y.1 ≤ k) = l.filter (fun y => ¬ y.1 ≤ k) := by
  induction l with
  | nil => rfl
  | cons y ys ih =>
      rcases List.pairwise_cons.mp h with ⟨hy, hys⟩
      by_cases hyk : y.1 ≤ k
      · rw [List.dropWhile_cons, List.filter_cons,
          if_pos (by simpa using hyk), if_neg (by simpa using hyk)]
        exact ih hys
      · rw [List.dropWhile_cons, List.filter_cons,
          if_neg (by simpa using hyk), if_pos (by simpa using hyk)]
        congr 1
        symm
        apply List.filter_eq_self.mpr
        intro a ha
        have h2 := hy a ha
        simp only [decide_eq_true_eq]
        omega

/-- On a key-sorted list, the elements with key `≤ col` split at `s ≤ col`
into the prefix of keys `≤ s` followed by the keys in `(s, col]`. -/
theorem filter_le_split {s col : Int} {l : List Color}
    (h : KeySorted l) (hsc : s ≤ col) :
    l.filter (fun y => y.1 ≤ col) =
      l.filter (fun y => y.1 ≤ s) ++
        l.filter (fun y => s < y.1 ∧ y.1 ≤ col) := by
  induction l with
  | nil => rfl
  | cons y ys ih =>
      rcases List.pairwise_cons.mp h with ⟨hy, hys⟩
      rw [List.filter_cons, List.filter_cons, List.filter_cons]
      by_cases h1 : y.1 ≤ s
      · rw [if_pos (by simp only [decide_eq_true_eq]; omega),
          if_pos (by simpa using h1),
          if_neg (by simp only [decide_eq_true_eq, not_and]; omega)]
        rw [ih hys, List.cons_append]
      · by_cases h2 : y.1 ≤ col
        · rw [if_pos (by simpa using h2), if_neg (by simpa using h1),
            if_pos (by simp only [decide_eq_true_eq]; omega)]
          have hnil : ys.filter (fun y => y.1 ≤ s) = [] := by
            apply List.filter_eq_nil_iff.mpr
            intro a ha
            have h3 := hy a ha
            simp only [decide_eq_true_eq]
            omega
          rw [hnil, List.nil_append]
          congr 1
          apply List.filter_congr
          intro a ha
          have h3 := hy a ha
          simp only [decide_eq_decide]
          omega
        · rw [if_neg (by simpa using h2), if_neg (by simpa using h1),
            if_neg (by simp only [decide_eq_true_eq, not_and]; omega)]
          have hnil : ∀ (q : Color → Prop) [DecidablePred q],
              (∀ a : Color, q a → a.1 ≤ col) →
              ys.filter (fun y => q y) = [] := by
            intro q _ himp
            apply List.filter_eq_nil_iff.mpr
            intro a ha
            have h3 := hy a ha
            simp only [decide_eq_true_eq]
            intro hq
            have := himp a hq
            omega
          rw [hnil _ (fun a hq => hq),
            hnil _ (fun a hq => by omega),
            hnil _ (fun a hq => hq.2)]
          rfl

/-- `pySort` applied to the exact list shape `addColorSpan` builds, for a
key-sorted base `B`: the pair `(s, c), (s, p)` lands, in that order, after
every surviving key `≤ s` and before every surviving key `> s`. -/
theorem pySort_insert_pair {B : List Color} {s c p : Int} (hB : KeySorted B) :
    pySort ((B.filter (fun x => x.1 ≠ s)) ++ [(s, c), (s, p)]) =
      ((B.filter (fun x => x.1 ≠ s)).filter (fun y => y.1 ≤ s)) ++
        (s, c) :: (s, p) ::
          ((B.filter (fun x => x.1 ≠ s)).filter (fun y => ¬ y.1 ≤ s)) := by
  have hFsort : KeySorted (B.filter (fun x => x.1 ≠ s)) :=
    List.Pairwise.filter _ hB
  rw [show (B.filter (fun x => x.1 ≠ s)) ++ [(s, c), (s, p)] =
      ((B.filter (fun x => x.1 ≠ s)) ++ [(s, c)]) ++ [(s, p)] by simp]
  rw [pySort_append_singleton, pySort_append_singleton, pySort_eq_self hFsort]
  have h1 : insertAfterEq (s, c) (B.filter (fun x => x.1 ≠ s)) =
      ((B.filter (fun x => x.1 ≠ s)).takeWhile (fun y => y.1 ≤ s)) ++
        (s, c) :: ((B.filter (fun x => x.1 ≠ s)).dropWhile (fun y => y.1 ≤ s)) :=
    insertAfterEq_eq_takeDrop (s, c) (B.filter (fun x => x.1 ≠ s))
  rw [h1, takeWhile_eq_filter_of_sorted hFsort, dropWhile_eq_filter_of_sorted hFsort]
  rw [insertAfterEq_append_left (x := (s, p)) (fun y hy => by
    have := List.mem_filter.mp hy
    simpa using this.2)]
  congr 1
  show insertAfterEq (s, p) ((s, c) ::
      ((B.filter (fun x => x.1 ≠ s)).filter (fun y => ¬ y.1 ≤ s))) = _
  simp only [insertAfterEq]
  rw [if_pos (le_refl s)]
  congr 1
  cases hD : (B.filter (fun x => x.1 ≠ s)).filter (fun y => ¬ y.1 ≤ s) with
  | nil => rfl
  | cons d ds =>
      have hd : d ∈ (B.filter (fun x => x.1 ≠ s)).filter (fun y => ¬ y.1 ≤ s) := by
        rw [hD]; simp
      have := List.mem_filter.mp hd
      simp only [insertAfterEq]
      rw [if_neg (by simpa using this.2)]

theorem insertAfterEq_eq_cons {x : Color} {l : List Color}
    (h : ∀ y ∈ l, ¬ y.1 ≤ x.1) : insertAfterEq x l = x :: l := by
  cases l with
  | nil => rfl
  | cons y ys =>
      simp only [insertAfterEq]
      rw [if_neg (h y (by simp))]

theorem getLast_getD_cons (a : Int) (M : List Int) (d : Int) :
    (((a :: M).getLast?).getD d) = ((M.getLast?).getD a) := by
  cases M with
  | nil => rfl
  | cons x xs =>
      rw [List.getLast?_cons_cons]
      cases hg : (x :: xs).getLast? with
      | none =>
          rw [List.getLast?_eq_none_iff] at hg
          exact absurd hg (by simp)
      | some v => rfl

theorem getLast_getD_append (A M : List Int) (p d : Int)
    (hA : A.getLast? = some p) :
    (((A ++ M).getLast?).getD d) = ((M.getLast?).getD p) := by
  cases M with
  | nil => rw [List.append_nil, hA]; rfl
  | cons x xs =>
      rw [List.getLast?_append_cons]
      cases hg : (x :: xs).getLast? with
      | none =>
          rw [List.getLast?_eq_none_iff] at hg
          exact absurd hg (by simp)
      | some v => rfl

/-- The zero-width degenerate case of `add_color_span` is a silent no-op on
the rendered styles: on a key-sorted breakpoint list with a non-negative
start it changes the effective style of no column, because the inserted
pair `(start, style), (start, resumed)` re-asserts the resumed style at the
very start of the empty span. -/
theorem styleAt_addColorSpan_zero (colors : List Color) (c s col : Int)
    (hsort : KeySorted colors) (hs : 0 ≤ s) :
    styleAt (addColorSpan colors c s 0) col = styleAt colors col := by
  rcases hp : prevColorOf colors s with _ | p
  · -- `except IndexError` branch: no breakpoint at key ≤ s at all
    have hgoal : addColorSpan colors c s 0 =
        pySort (((((0 : Int), (1 : Int)) :: colors).filter (fun x => x.1 ≠ s)) ++
          [(s, c), (s, (1 : Int))]) := by
      unfold addColorSpan
      rw [show s + (0 : Int) = s from add_zero s, hp]
    rw [hgoal]
    have hfilnil : colors.filter (fun y => y.1 ≤ s) = [] := by
      have h0 : ((colors.filter (fun y => y.1 ≤ s)).map Prod.snd).getLast? = none := hp
      rw [List.getLast?_eq_none_iff, List.map_eq_nil_iff] at h0
      exact h0
    have hall : ∀ y ∈ colors, s < y.1 := by
      intro y hy
      have h1 := List.filter_eq_nil_iff.mp hfilnil y hy
      simp only [decide_eq_true_eq] at h1
      omega
    by_cases hs0 : s = 0
    · subst hs0
      have hF : ((((0 : Int), (1 : Int))) :: colors).filter (fun x => x.1 ≠ (0 : Int)) =
          colors := by
        rw [List.filter_cons, if_neg (by simp)]
        apply List.filter_eq_self.mpr
        intro a ha
        have h1 := hall a ha
        simp only [decide_eq_true_eq]
        omega
      rw [hF]
      have hR : pySort (colors ++ [((0 : Int), c), ((0 : Int), (1 : Int))]) =
          ((0 : Int), c) :: ((0 : Int), (1 : Int)) :: colors := by
        rw [show colors ++ [((0 : Int), c), ((0 : Int), (1 : Int))] =
            (colors ++ [((0 : Int), c)]) ++ [((0 : Int), (1 : Int))] by simp]
        rw [pySort_append_singleton, pySort_append_singleton, pySort_eq_self hsort]
        rw [show insertAfterEq ((0 : Int), c) colors = ((0 : Int), c) :: colors from
          insertAfterEq_eq_cons (fun y hy => by
            have h1 := hall y hy
            show ¬ y.1 ≤ (0 : Int)
            omega)]
        show insertAfterEq ((0 : Int), (1 : Int)) (((0 : Int), c) :: colors) = _
        simp only [insertAfterEq]
        rw [if_pos (le_refl (0 : Int))]
        rw [show insertAfterEq ((0 : Int), (1 : Int)) colors =
            ((0 : Int), (1 : Int)) :: colors from
          insertAfterEq_eq_cons (fun y hy => by
            have h1 := hall y hy
            show ¬ y.1 ≤ (0 : Int)
            omega)]
      rw [hR]
      unfold styleAt prevColorOf
      rw [List.filter_cons, List.filter_cons]
      by_cases h0c : (0 : Int) ≤ col
      · rw [if_pos (by simpa using h0c), if_pos (by simpa using h0c)]
        rw [List.map_cons, List.map_cons]
        dsimp only
        rw [getLast_getD_cons, getLast_getD_cons]
      · rw [if_neg (by simpa using h0c), if_neg (by simpa using h0c)]
    · -- 0 < s: the prepended default breakpoint survives the ≠ start filter
      have hspos : (0 : Int) < s := by omega
      have hB : KeySorted ((((0 : Int), (1 : Int))) :: colors) := by
        refine List.pairwise_cons.mpr ⟨?_, hsort⟩
        intro y hy
        have h1 := hall y hy
        show (0 : Int) ≤ y.1
        omega
      rw [pySort_insert_pair hB]
      have hF2 : ((((0 : Int), (1 : Int))) :: colors).filter (fun x => x.1 ≠ s) =
          (((0 : Int), (1 : Int))) :: colors := by
        rw [List.filter_cons, if_pos (by
          simp only [decide_eq_true_eq]
          show (0 : Int) ≠ s
          omega)]
        congr 1
        apply List.filter_eq_self.mpr
        intro a ha
        have h1 := hall a ha
        simp only [decide_eq_true_eq]
        omega
      rw [hF2]
      have hT2 : ((((0 : Int), (1 : Int))) :: colors).filter (fun y => y.1 ≤ s) =
          [(((0 : Int), (1 : Int)))] := by
        rw [List.filter_cons, if_pos (by
          simp only [decide_eq_true_eq]
          show (0 : Int) ≤ s
          omega)]
        rw [hfilnil]
      have hD2 : ((((0 : Int), (1 : Int))) :: colors).filter (fun y => ¬ y.1 ≤ s) =
          colors := by
        rw [List.filter_cons, if_neg (by
          simp only [decide_eq_true_eq]
          show ¬ ¬ (0 : Int) ≤ s
          omega)]
        apply List.filter_eq_self.mpr
        intro a ha
        have h1 := hall a ha
        simp only [decide_eq_true_eq]
        omega
      rw [hT2, hD2, List.singleton_append]
      unfold styleAt prevColorOf
      rw [List.filter_cons, List.filter_cons, List.filter_cons]
      by_cases hcol : s ≤ col
      · rw [if_pos (by
            simp only [decide_eq_true_eq]
            show (0 : Int) ≤ col
            omega),
          if_pos (by simpa using hcol), if_pos (by simpa using hcol)]
        rw [List.map_cons, List.map_cons, List.map_cons]
        dsimp only
        rw [getLast_getD_cons, getLast_getD_cons, getLast_getD_cons]
      · by_cases h0c : (0 : Int) ≤ col
        · rw [if_pos (by simpa using h0c),
            if_neg (by simpa using hcol), if_neg (by simpa using hcol)]
          rw [List.map_cons]
          dsimp only
          rw [getLast_getD_cons]
        · rw [if_neg (by simpa using h0c),
            if_neg (by
              simp only [decide_eq_true_eq]
              show ¬ s ≤ col
              omega),
            if_neg (by
              simp only [decide_eq_true_eq]
              show ¬ s ≤ col
              omega)]
  · -- ordinary branch: a previous style p exists at key ≤ s
    have hgoal : addColorSpan colors c s 0 =
        pySort ((colors.filter (fun x => x.1 ≠ s)) ++ [(s, c), (s, p)]) := by
      unfold addColorSpan
      rw [show s + (0 : Int) = s from add_zero s, hp]
    rw [hgoal, pySort_insert_pair hsort]
    unfold styleAt prevColorOf
    by_cases hcol : s ≤ col
    · rw [List.filter_append, List.filter_cons, List.filter_cons,
        if_pos (by simpa using hcol), if_pos (by simpa using hcol)]
      have hDc : (((colors.filter (fun x => x.1 ≠ s)).filter
            (fun y => ¬ y.1 ≤ s)).filter (fun y => y.1 ≤ col)) =
          colors.filter (fun y => s < y.1 ∧ y.1 ≤ col) := by
        rw [List.filter_filter, List.filter_filter]
        apply List.filter_congr
        intro a ha
        simp only [← Bool.decide_and, decide_eq_decide]
        omega
      rw [hDc]
      rw [List.map_append, List.map_cons, List.map_cons]
      dsimp only
      rw [List.getLast?_append_cons]
      rw [getLast_getD_cons, getLast_getD_cons]
      rw [filter_le_split hsort hcol, List.map_append]
      rw [getLast_getD_append _ _ p 1
        (show ((colors.filter (fun y => y.1 ≤ s)).map Prod.snd).getLast? = some p from hp)]
    · rw [List.filter_append, List.filter_cons, List.filter_cons,
        if_neg (by simpa using hcol), if_neg (by simpa using hcol)]
      have hDnil : (((colors.filter (fun x => x.1 ≠ s)).filter
            (fun y => ¬ y.1 ≤ s)).filter (fun y => y.1 ≤ col)) = [] := by
        apply List.filter_eq_nil_iff.mpr
        intro a ha
        have h1 := (List.mem_filter.mp ha).2
        simp only [decide_eq_true_eq] at h1 ⊢
        omega
      have hTfix : (((colors.filter (fun x => x.1 ≠ s)).filter
            (fun y => y.1 ≤ s)).filter (fun y => y.1 ≤ col)) =
          colors.filter (fun y => y.1 ≤ col) := by
        rw [List.filter_filter, List.filter_filter]
        apply List.filter_congr
        intro a ha
        simp only [← Bool.decide_and, decide_eq_decide]
        omega
      rw [hDnil, hTfix, List.append_nil]

/-- C9 counterexample: a negative-width span insertion is neither a no-op
nor a silent clamp.  Inserting style 2 at start 5 with width −3 into the
default breakpoint list `[(0, 1)]` yields `[(0, 1), (2, 1), (5, 2)]`: the
resumed-style breakpoint lands at column 2, *before* the span start, so the
inserted style 2 is left unterminated — the effective style of column 6,
which lies outside every clamping of the empty span `[5, 2)`, flips from 1
to 2, restyling the line tail from column 5 onward. -/
theorem add_color_span_degenerate_counterexample :
    addColorSpan [((0 : Int), (1 : Int))] 2 5 (-3) =
      [((0 : Int), (1 : Int)), ((2 : Int), (1 : Int)), ((5 : Int), (2 : Int))]
    ∧ styleAt [((0 : Int), (1 : Int))] 6 = 1
    ∧ styleAt (addColorSpan [((0 : Int), (1 : Int))] 2 5 (-3)) 6 = 2 := by
  decide

/-- C9 (amended): span insertion with a degenerate input — `width ≤ 0`, or
`start` beyond the line end — never raises: the exception-explicit embedding
returns `.ok` of the pure result (the only fallible primitive, the `[-1]`
lookup, is wrapped in `try/except IndexError`, and the method never touches
the line text).  Moreover a zero-width insertion is a genuine silent no-op
on the rendered output: on the key-sorted breakpoint lists the program
stores, with a non-negative start column, it leaves the effective style of
every column unchanged.  (Negative widths are merely safe, not no-ops or
clamps: the two breakpoints are inserted as given, which restyles the tail —
see the counterexample.) -/
theorem add_color_span_degenerate_amended :
    (∀ (line : LineS) (colors : List Color) (c s w : Int),
      w ≤ 0 ∨ (line.s.length : Int) < s →
      addColorSpanE colors c s w = .ok (addColorSpan colors c s w))
    ∧ (∀ (colors : List Color) (c s col : Int),
      KeySorted colors → 0 ≤ s →
      styleAt (addColorSpan colors c s 0) col = styleAt colors col) := by
  constructor
  · intro line colors c s w hdeg
    unfold addColorSpanE addColorSpan
    rcases h : prevColorOf colors (s + w) with _ | p <;> simp
  · intro colors c s col hsort hs
    exact styleAt_addColorSpan_zero colors c s col hsort hs

theorem add_color_span_degenerate_amended_witness :
    addColorSpanE [((0 : Int), (1 : Int))] 2 5 (-1) =
      .ok (addColorSpan [((0 : Int), (1 : Int))] 2 5 (-1))
    ∧ styleAt (addColorSpan [((0 : Int), (1 : Int))] 2 5 0) 7 =
        styleAt [((0 : Int), (1 : Int))] 7 := by
  constructor
  · exact add_color_span_degenerate_amended.1 (mkLine []) [((0 : Int), (1 : Int))]
      2 5 (-1) (Or.inl (by norm_num))
  · exact add_color_span_degenerate_amended.2 [((0 : Int), (1 : Int))] 2 5 7
      (by simp [KeySorted]) (by norm_num)

/-- C7: on a string-annotated line of length `S` at viewport width `W` (with
a non-degenerate cap `S - W + 3 ≥ 0`), `increase_offset` raises the offset in
steps of 10 up to the cap `S - W + 3` and is monotone below the cap, staying
clamped once the cap is reached; `decrease_offset` lowers the offset in steps
of 10, never below 0. -/
theorem offset_step_cap (line : LineS) (a : JsonAnnotation) (W : Int)
    (hj : line.json = some a) (hstr : a.type = JsonType.string)
    (hcap : 0 ≤ (line.s.length : Int) - W + 3) :
    (increaseOffset line W).offset = min ((line.s.length : Int) - W + 3) (line.offset + 10)
    ∧ (line.offset ≤ (line.s.length : Int) - W + 3 →
        line.offset ≤ (increaseOffset line W).offset)
    ∧ (line.offset = (line.s.length : Int) - W + 3 →
        (increaseOffset line W).offset = (line.s.length : Int) - W + 3)
    ∧ (decreaseOffset line).offset = max 0 (line.offset - 10)
    ∧ 0 ≤ (decreaseOffset line).offset
    ∧ (0 ≤ line.offset → (decreaseOffset line).offset ≤ line.offset) := by
  unfold increaseOffset decreaseOffset
  rw [hj]
  dsimp only
  refine ⟨by omega, by omega, by omega, rfl, by omega, by omega⟩

theorem offset_step_cap_witness :
    (increaseOffset offsetWitnessLine 10).offset =
      min ((offsetWitnessLine.s.length : Int) - 10 + 3) (offsetWitnessLine.offset + 10)
    ∧ (decreaseOffset offsetWitnessLine).offset = max 0 (offsetWitnessLine.offset - 10) := by
  have h := offset_step_cap offsetWitnessLine
    (mkJsonAnn JsonType.string none (0, 20)) 10 rfl rfl (by decide)
  exact ⟨h.1, h.2.2.2.1⟩

/-- C8: `Line.draw` never mutates the source `Line`: for every line,
geometry, cursor span, collapse state and offset, the line object after the
call — text, stored color breakpoints, annotation, row and offset — is
exactly the line before it.  Every transformation (collapse summary, running
array count, string elision, truncation, padding, cursor overlay) happens on
rebound local copies; the single in-place list update in the body occurs
only after `colors` has been rebound to a fresh list. -/
theorem draw_does_not_mutate (line : LineS) (srow w : Int)
    (cursor_span : Option (Nat × Nat)) :
    (drawLine line srow w cursor_span).line = line := by
  unfold drawLine
  cases hj : line.json with
  | none => rfl
  | some a =>
      by_cases hc : a.type = JsonType.string ∧ line.offset ≠ 0 <;>
        simp [hc]

/-- C10 counterexample: if the display is not started, `print` first calls
`start()`, which clears the buffer, so a call made "when the buffer is
non-empty" does not merge the old tail: here the buffer held `"a"`, the call
appends `"b"` with `flush=False`, and the result is `["b"]`, not the claimed
merged tail `"ab"`. -/
theorem print_merge_counterexample :
    (lsPrint { started := false, content := [mkLine (str2l "a")] } (str2l "b") false).content
      = [mkLine (str2l "b")]
    ∧ mkLine (str2l "b") ≠ mkLine (str2l "a" ++ str2l "b") := by
  constructor
  · rfl
  · decide

/-- C10 (amended): for every `print(s, flush=False)` call made when the
display is started, the buffer is non-empty and `s` yields at least one
line, the previous tail line is replaced by a freshly constructed `Line`
whose text is the concatenation of the old tail text and the first new line;
the merged line has empty colors and no annotation (the old tail's
breakpoints and annotation are discarded), and the remaining new lines
follow it. -/
theorem print_merge (st : PrintState) (s x : List Char) (xs : List (List Char))
    (pre : List LineS) (tl : LineS)
    (hstart : st.started = true) (hsplit : pySplitlines s = x :: xs)
    (hcontent : st.content = pre ++ [tl]) :
    (lsPrint st s false).started = true
    ∧ (lsPrint st s false).content = (pre ++ [mkLine (tl.s ++ x)]) ++ xs.map mkLine
    ∧ (mkLine (tl.s ++ x)).colors = [] ∧ (mkLine (tl.s ++ x)).json = none := by
  refine ⟨?_, ?_, rfl, rfl⟩ <;>
  · unfold lsPrint
    rw [hstart, hsplit]
    cases pre with
    | nil => simp [hcontent, mkLine, hstart]
    | cons p0 pre2 =>
        have hdl : (p0 :: (pre2 ++ [tl])).dropLast = p0 :: pre2 := by
          rw [← List.cons_append, List.dropLast_concat]
        have hgl : (p0 :: (pre2 ++ [tl])).getLast? = some tl := by
          rw [← List.cons_append, List.getLast?_concat]
        simp [hcontent, mkLine, hstart, hdl, hgl]

theorem print_merge_witness :
    (lsPrint printWitnessState (str2l "b") false).content
      = ([] ++ [mkLine ((mkLine (str2l "a")).s ++ str2l "b")]) ++ ([] : List (List Char)).map mkLine := by
  exact (print_merge printWitnessState (str2l "b") (str2l "b") [] []
    (mkLine (str2l "a")) rfl (by decide) rfl).2.1

/-- C1: evaluation at the failing input.  With one pre-existing buffer line
(`print("hello")`) followed by `print_json([1])`, the array start lands at
buffer row 1 and its end at buffer row 3.  The source sets the start's pair
index to `i + num_existing_lines = 3`, which equals the end's buffer row,
but builds the end annotation with the bare local index `entity_start = 0`,
not the start's buffer row 1 — the match relation is not mutual when the
buffer already contained lines. -/
theorem print_json_pairing_eval :
    ((printJson [mkLine (str2l "hello")] (.arr [.num 1]) true).map (fun c =>
      (((c.get? 1).bind LineS.json).bind JsonAnnotation.pair_idx,
       ((c.get? 3).bind LineS.json).bind JsonAnnotation.pair_idx,
       (c.get? 1).bind LineS.row,
       (c.get? 3).bind LineS.row)))
    = some (some 3, some 0, some 1, some 3) := by decide

/-- C2: evaluation at the failing input.  After `print_json([1])` (rows 0-2,
all `hidden = 0`), `set_collapsed(0, True)` runs
`hidden += -1 if collapsed else 1`, so every annotated line in the range
(rows 1 and 2) ends at hidden-depth `-1`: collapsing DECREMENTS the counter
(below zero), where the claim — and the source's own comment
`> 0 Indicates that this entity is hidden by a collapsed parent` — require
an increment to `+1`. -/
theorem set_collapsed_hidden_sign_eval :
    (((printJson [] (.arr [.num 1]) true).bind (fun c => setCollapsed c 0 true)).map (fun c =>
      (((c.get? 1).bind LineS.json).map JsonAnnotation.hidden,
       ((c.get? 2).bind LineS.json).map JsonAnnotation.hidden)))
    = some (some (-1), some (-1)) := by decide

/-- C6: evaluation at the failing input.  The source list
`[{"a\":b": [1]}]` has the outer array of length K = 1, but its single
element's key contains `":`, so the serialized line `        "a\":b": [` is
mis-parsed by the key-value regex (group 1 closes at the escaped quote and
the value token becomes `b": [`): the inner array start is never pushed, the
subsequent closing brackets pop the wrong entities, and the final `]` pops
an empty stack — `print_json` raises `IndexError` (modelled as `none`), and
the outer array's start line never receives `child_count = 1`. -/
theorem print_json_child_count_eval :
    printJson [] (.arr [.obj [(str2l "a\":b", .arr [.num 1])]]) true = none := by decide

/-! ### Collapse/expand round-trip (C5) -/

theorem lineHidden_bumpHiddenLine (delta : Int) (l : LineS) :
    lineHidden (bumpHiddenLine delta l) = (lineHidden l).map (· + delta) := by
  cases hj : l.json <;> simp [bumpHiddenLine, lineHidden, hj]

theorem bumpHiddenLine_json (delta : Int) (l : LineS) :
    (bumpHiddenLine delta l).json =
      l.json.map (fun a => { a with hidden := a.hidden + delta }) := by
  cases hj : l.json <;> simp [bumpHiddenLine, hj]

theorem bumpHiddenLine_row (delta : Int) (l : LineS) :
    (bumpHiddenLine delta l).row = l.row := by
  cases hj : l.json <;> simp [bumpHiddenLine, hj]

/-- What the bump loop does to each position of the buffer. -/
theorem bumpHiddenRange_get (content res : List LineS) (lo cnt : Nat) (delta : Int)
    (h : bumpHiddenRange content lo cnt delta = some res) (j : Nat) :
    res.get? j = (content.get? j).map
      (fun l => if lo ≤ j ∧ j < lo + cnt then bumpHiddenLine delta l else l) := by
  induction cnt generalizing content lo with
  | zero =>
      unfold bumpHiddenRange at h
      injection h with h2
      subst h2
      cases hgj : content.get? j with
      | none => simp
      | some l =>
          simp only [Option.map_some, Option.map_some']
          rw [if_neg (by omega)]
  | succ n ih =>
      unfold bumpHiddenRange at h
      cases hg : content.get? lo with
      | none => rw [hg] at h; exact absurd h (by simp)
      | some l =>
          rw [hg] at h
          have hrec := ih _ _ h
          rw [hrec]
          by_cases hji : j = lo
          · subst hji
            rw [List.get?_set_eq, hg]
            have h1 : ¬ (j + 1 ≤ j ∧ j < j + 1 + n) := by omega
            have h2 : j ≤ j ∧ j < j + (n + 1) := by omega
            simp [h1, h2]
          · rw [List.get?_set_ne _ _ (fun hx => hji hx.symm)]
            cases hgj : content.get? j with
            | none => simp
            | some l2 =>
                by_cases hin : lo + 1 ≤ j ∧ j < lo + 1 + n
                · have h3 : lo ≤ j ∧ j < lo + (n + 1) := by omega
                  simp [hin, h3]
                · have h3 : ¬ (lo ≤ j ∧ j < lo + (n + 1)) := by omega
                  simp [hin, h3]

/-! Projection helpers for `toggleLine` and the bump loop. -/

theorem toggleLine_json (l : LineS) (a : JsonAnnotation) (b : Bool) :
    (toggleLine l a b).json = some { a with collapsed := b } := rfl

theorem toggleLine_row (l : LineS) (a : JsonAnnotation) (b : Bool) :
    (toggleLine l a b).row = l.row := rfl

theorem toggleLine_retoggle (l : LineS) (a a2 : JsonAnnotation) (b c : Bool) :
    toggleLine (toggleLine l a b) a2 c = toggleLine l a2 c := rfl

theorem bump_toggleLine (delta : Int) (l : LineS) (a : JsonAnnotation) (b : Bool) :
    bumpHiddenLine delta (toggleLine l a b) =
      toggleLine l { a with hidden := a.hidden + delta } b := rfl

theorem lineHidden_toggleLine (l : LineS) (a : JsonAnnotation) (b : Bool) :
    lineHidden (toggleLine l a b) = some a.hidden := rfl

theorem collapsible_collapsedUpdate (a : JsonAnnotation) (b : Bool) :
    collapsible { a with collapsed := b } = collapsible a := rfl

theorem collapsible_hiddenUpdate (a : JsonAnnotation) (h : Int) :
    collapsible { a with hidden := h } = collapsible a := rfl

/-- Shape of `set_collapsed` on the live path: the guards passed, so the
collapsed flag is toggled and the bump loop runs over `(row, pair_idx]`. -/
theorem setCollapsed_eq_bump (content : List LineS) (i : Nat) (line : LineS)
    (ann : JsonAnnotation) (b : Bool) (r e : Nat)
    (hg : content.get? i = some line) (hj : line.json = some ann)
    (hcol : collapsible ann = true) (hne : ¬ (ann.collapsed = b))
    (hr : line.row = some r) (hpi : ann.pair_idx = some e) :
    setCollapsed content i b =
      bumpHiddenRange (content.set i (toggleLine line ann b)) (r + 1) (e + 1 - (r + 1))
        (if b then -1 else 1) := by
  unfold setCollapsed
  rw [hg]
  dsimp only
  rw [hj]
  dsimp only
  rw [hcol, if_neg (by simp), if_neg hne, hr, hpi]

/-- Shape of the expand call made on the buffer produced by a collapse call:
it toggles the flag back and bumps the same range by `+1`. -/
theorem setCollapsed_expand_get (c1 c2 : List LineS) (i : Nat) (line : LineS)
    (annX : JsonAnnotation) (r e : Nat)
    (hc1i : c1.get? i = some (toggleLine line annX true))
    (hXcol : collapsible annX = true)
    (hr : line.row = some r) (hXpair : annX.pair_idx = some e)
    (h2 : setCollapsed c1 i false = some c2) :
    bumpHiddenRange (c1.set i (toggleLine line annX false)) (r + 1) (e + 1 - (r + 1)) 1
      = some c2 := by
  have hjD : (toggleLine line annX true).json = some { annX with collapsed := true } := rfl
  have hcolD : collapsible { annX with collapsed := true } = true := by
    rw [collapsible_collapsedUpdate]
    exact hXcol
  have hneD : ¬ (({ annX with collapsed := true }).collapsed = false) := by simp
  have hrD : (toggleLine line annX true).row = some r := by
    rw [toggleLine_row]
    exact hr
  have hpiD : ({ annX with collapsed := true }).pair_idx = some e := hXpair
  have hshape := setCollapsed_eq_bump c1 i (toggleLine line annX true)
    { annX with collapsed := true } false r e hc1i hjD hcolD hneD hrD hpiD
  rw [hshape] at h2
  rw [if_neg (by simp)] at h2
  rw [toggleLine_retoggle] at h2
  have hsame : toggleLine line { annX with collapsed := true } false
      = toggleLine line annX false := rfl
  rw [hsame] at h2
  exact h2

/-- The pointwise computation closing the round-trip: hidden-depths after
collapse (−1 on the range) then expand (+1 on the same range) equal the
original ones. -/
theorem roundtrip_final (content c1 c2 : List LineS) (i j : Nat) (line : LineS)
    (ann annX : JsonAnnotation) (r e : Nat)
    (hg : content.get? i = some line) (hj : line.json = some ann)
    (hc1i : c1.get? i = some (toggleLine line annX true))
    (hc1k : ∀ k, c1.get? k = ((content.set i (toggleLine line ann true)).get? k).map
        (fun l => if r + 1 ≤ k ∧ k < r + 1 + (e + 1 - (r + 1)) then bumpHiddenLine (-1) l else l))
    (hc2k : ∀ k, c2.get? k = ((c1.set i (toggleLine line annX false)).get? k).map
        (fun l => if r + 1 ≤ k ∧ k < r + 1 + (e + 1 - (r + 1)) then bumpHiddenLine 1 l else l))
    (hXhidden : annX.hidden =
      ann.hidden + (if r + 1 ≤ i ∧ i < r + 1 + (e + 1 - (r + 1)) then -1 else 0)) :
    (c2.get? j).map lineHidden = (content.get? j).map lineHidden := by
  rw [hc2k j]
  by_cases hji : j = i
  · subst hji
    rw [List.get?_set_eq, hc1i, hg]
    simp only [Option.map_some, Option.map_some']
    by_cases hini : r + 1 ≤ j ∧ j < r + 1 + (e + 1 - (r + 1))
    · rw [if_pos hini] at hXhidden
      rw [if_pos hini, bump_toggleLine, lineHidden_toggleLine]
      simp only [lineHidden, hj, Option.map_some, Option.map_some', Option.some.injEq]
      omega
    · rw [if_neg hini] at hXhidden
      rw [if_neg hini, lineHidden_toggleLine]
      simp only [lineHidden, hj, Option.map_some, Option.map_some', Option.some.injEq]
      omega
  · have hne : i ≠ j := fun hx => hji hx.symm
    rw [List.get?_set_ne _ _ hne, hc1k j, List.get?_set_ne _ _ hne]
    cases hgj : content.get? j with
    | none => simp
    | some l2 =>
        simp only [Option.map_some, Option.map_some']
        by_cases hinj : r + 1 ≤ j ∧ j < r + 1 + (e + 1 - (r + 1))
        · rw [if_pos hinj, if_pos hinj, lineHidden_bumpHiddenLine,
            lineHidden_bumpHiddenLine]
          cases hl2 : lineHidden l2
          · simp
          · simp only [Option.map_some, Option.map_some', Option.some.injEq]
            omega
        · rw [if_neg hinj, if_neg hinj]

/-- C5: collapse/expand round-trip.  For every buffer and row whose line is
not already collapsed (the claim's "starting from an expanded state" —
covering unannotated and non-collapsible rows, on which both calls are
no-ops), `set_collapsed(row, True)` followed by `set_collapsed(row, False)`
restores every line of the buffer to its original hidden-depth. -/
theorem collapse_expand_roundtrip (content c1 c2 : List LineS) (i : Nat)
    (hexp : (content.get? i).bind lineCollapsed ≠ some true)
    (h1 : setCollapsed content i true = some c1)
    (h2 : setCollapsed c1 i false = some c2) :
    ∀ j, (c2.get? j).map lineHidden = (content.get? j).map lineHidden := by
  intro j
  cases hg : content.get? i with
  | none =>
      unfold setCollapsed at h1
      rw [hg] at h1
      exact absurd h1 (by simp)
  | some line =>
      cases hj : line.json with
      | none =>
          unfold setCollapsed at h1 h2
          rw [hg] at h1
          dsimp only at h1
          rw [hj] at h1
          dsimp only at h1
          injection h1 with h1e
          subst h1e
          rw [hg] at h2
          dsimp only at h2
          rw [hj] at h2
          dsimp only at h2
          injection h2 with h2e
          subst h2e
          rfl
      | some ann =>
          by_cases hcol : collapsible ann = true
          case neg =>
              have hcolF : collapsible ann = false := by
                revert hcol
                cases collapsible ann <;> simp
              unfold setCollapsed at h1 h2
              rw [hg] at h1
              dsimp only at h1
              rw [hj] at h1
              dsimp only at h1
              rw [hcolF, if_pos rfl] at h1
              injection h1 with h1e
              subst h1e
              rw [hg] at h2
              dsimp only at h2
              rw [hj] at h2
              dsimp only at h2
              rw [hcolF, if_pos rfl] at h2
              injection h2 with h2e
              subst h2e
              rfl
          case pos =>
              have hcolF : ann.collapsed = false := by
                rcases hb : ann.collapsed
                · rfl
                · exact absurd (show (content.get? i).bind lineCollapsed = some true by
                    rw [hg]
                    simp [lineCollapsed, hj, hb]) hexp
              cases hr : line.row with
              | none =>
                  unfold setCollapsed at h1
                  rw [hg] at h1
                  dsimp only at h1
                  rw [hj] at h1
                  dsimp only at h1
                  rw [hcol, if_neg (by simp), if_neg (by simp [hcolF]), hr] at h1
                  cases hpi : ann.pair_idx <;>
                    (rw [hpi] at h1; exact absurd h1 (by simp))
              | some r =>
                  cases hpi : ann.pair_idx with
                  | none =>
                      unfold setCollapsed at h1
                      rw [hg] at h1
                      dsimp only at h1
                      rw [hj] at h1
                      dsimp only at h1
                      rw [hcol, if_neg (by simp), if_neg (by simp [hcolF]), hr, hpi] at h1
                      exact absurd h1 (by simp)
                  | some e =>
                      have hshape1 := setCollapsed_eq_bump content i line ann true r e
                        hg hj hcol (by simp [hcolF]) hr hpi
                      rw [hshape1, if_pos rfl] at h1
                      have hc1k := fun k => bumpHiddenRange_get _ _ _ _ _ h1 k
                      have hc1i := hc1k i
                      rw [List.get?_set_eq, hg] at hc1i
                      simp only [Option.map_eq_map, Option.map_some, Option.map_some'] at hc1i
                      by_cases hini : r + 1 ≤ i ∧ i < r + 1 + (e + 1 - (r + 1))
                      · rw [if_pos hini, bump_toggleLine] at hc1i
                        have hXcol : collapsible { ann with hidden := ann.hidden + -1 } = true := by
                          rw [collapsible_hiddenUpdate]
                          exact hcol
                        have h2b := setCollapsed_expand_get c1 c2 i line
                          { ann with hidden := ann.hidden + -1 } r e hc1i hXcol hr hpi h2
                        have hc2k := fun k => bumpHiddenRange_get _ _ _ _ _ h2b k
                        exact roundtrip_final content c1 c2 i j line ann
                          { ann with hidden := ann.hidden + -1 } r e hg hj hc1i hc1k hc2k
                          (by rw [if_pos hini])
                      · rw [if_neg hini] at hc1i
                        have h2b := setCollapsed_expand_get c1 c2 i line ann r e
                          hc1i hcol hr hpi h2
                        have hc2k := fun k => bumpHiddenRange_get _ _ _ _ _ h2b k
                        exact roundtrip_final content c1 c2 i j line ann ann r e
                          hg hj hc1i hc1k hc2k (by rw [if_neg hini]; omega)

theorem collapse_expand_roundtrip_witness :
    (roundtripC2.get? 1).map lineHidden = (roundtripContent.get? 1).map lineHidden := by
  have h1 : setCollapsed roundtripContent 0 true = some roundtripC1 := by decide
  have h2 : setCollapsed roundtripC1 0 false = some roundtripC2 := by decide
  exact collapse_expand_roundtrip roundtripContent roundtripC1 roundtripC2 0
    (by decide) h1 h2 1

/-! ### Structural-mode cursor selection (C3) -/

theorem findRevFrom_some {cond : Nat → Bool} {k j : Nat}
    (h : findRevFrom cond k = some j) : cond j = true ∧ j < k := by
  induction k with
  | zero => simp [findRevFrom] at h
  | succ n ih =>
      unfold findRevFrom at h
      by_cases hc : cond n
      · rw [if_pos hc] at h
        injection h with he
        subst he
        exact ⟨hc, by omega⟩
      · rw [if_neg hc] at h
        rcases ih h with ⟨h1, h2⟩
        exact ⟨h1, by omega⟩

theorem findFirstFrom_some {cond : Nat → Bool} {start cnt j : Nat}
    (h : findFirstFrom cond start cnt = some j) :
    cond j = true ∧ start ≤ j ∧ ∀ k, start ≤ k → k < j → cond k = false := by
  induction cnt generalizing start with
  | zero => simp [findFirstFrom] at h
  | succ n ih =>
      unfold findFirstFrom at h
      by_cases hc : cond start
      · rw [if_pos hc] at h
        injection h with he
        subst he
        exact ⟨hc, le_refl _, fun k h1 h2 => absurd h1 (by omega)⟩
      · rw [if_neg hc] at h
        rcases ih h with ⟨h1, h2, h3⟩
        refine ⟨h1, by omega, fun k hk1 hk2 => ?_⟩
        by_cases hks : k = start
        · subst hks
          revert hc
          cases cond k <;> simp
        · exact h3 k (by omega) hk2

/-- C3 counterexample: at a state whose first key-or-collapsible line at or
after the top row has hidden-depth 1 (> 0) while a visible eligible line
follows it, the mode toggle into structural mode selects the hidden line as
the cursor target — `cycle_mode`'s re-anchor scan has no visibility filter,
so the claim's "first eligible visible line" (row 1 here) is not chosen and
a line with hidden-depth > 0 is selected. -/
theorem cycle_mode_hidden_counterexample :
    (cycleMode toggleStateCE).mode = NavMode.json
    ∧ (cycleMode toggleStateCE).cursor_row = some 0
    ∧ ((toggleStateCE.content.get? 0).bind lineHidden) = some 1
    ∧ jsonCursorOk toggleStateCE.content 1 = true := by decide

/-- C3 (amended): the structural-mode cursor up/down moves never select a
line with a nonzero hidden counter (their scans filter on
`json and (key or collapsible) and not hidden`); the mode toggle into
structural mode re-anchors an undefined or out-of-view cursor to the first
line at or after the current top row with a key span or collapsible kind —
without testing hidden-depth, so a hidden line can be chosen when it comes
first — and is rejected (mode stays plain-scroll, cursor unset) when no such
line exists. -/
theorem cursor_selection_amended :
    (∀ (content : List LineS) (c j : Nat),
        scrollJsonUpSel content c = some j ∨ scrollJsonDownSel content c = some j →
        jsonCursorOk content j = true)
    ∧ (∀ st : DisplayState, st.mode = NavMode.scroll → cursorInvalid st = true →
        (∀ j, (cycleMode st).cursor_row = some j →
            (cycleMode st).mode = NavMode.json ∧ lineEligible st.content j = true ∧
            st.top_row ≤ j ∧ ∀ k, st.top_row ≤ k → k < j → lineEligible st.content k = false)
        ∧ ((cycleMode st).cursor_row = none → (cycleMode st).mode = NavMode.scroll)) := by
  constructor
  · rintro content c j (h | h)
    · exact (findRevFrom_some h).1
    · exact (findFirstFrom_some h).1
  · intro st hmode hinv
    constructor
    · intro j hcur
      unfold cycleMode at hcur ⊢
      rw [hmode] at hcur ⊢
      dsimp only at hcur ⊢
      rw [hinv] at hcur ⊢
      rw [if_pos rfl] at hcur ⊢
      cases hf : findFirstFrom (lineEligible st.content) st.top_row
          (st.content.length - st.top_row) with
      | none =>
          rw [hf] at hcur
          dsimp only at hcur
          exact absurd hcur (by simp)
      | some i =>
          rw [hf] at hcur
          dsimp only at hcur
          injection hcur with he
          subst he
          rcases findFirstFrom_some hf with ⟨h1, h2, h3⟩
          exact ⟨rfl, h1, h2, h3⟩
    · intro hnone
      unfold cycleMode at hnone ⊢
      rw [hmode] at hnone ⊢
      dsimp only at hnone ⊢
      rw [hinv] at hnone ⊢
      rw [if_pos rfl] at hnone ⊢
      cases hf : findFirstFrom (lineEligible st.content) st.top_row
          (st.content.length - st.top_row) with
      | none => rfl
      | some i =>
          rw [hf] at hnone
          dsimp only at hnone
          exact absurd hnone (by simp)

theorem cursor_selection_amended_witness :
    jsonCursorOk [visibleEligLine] 0 = true :=
  cursor_selection_amended.1 [visibleEligLine] 1 0 (Or.inl (by decide))


/-- Differential validation of the annotator against the source semantics:
the spec scenario input (a number entry and an array of three numbers). -/
theorem annotator_scenario_object :
    (printJson [] (.obj [(str2l "a", .num 1), (str2l "b", .arr [.num 1, .num 2, .num 3])]) true).map (List.map obsLine) = some
  [(str2l "\x7b", some (JsonType.objStart, none, (0, 1), some 7, 0), some 0),
   (str2l "    \"a\": 1,", some (JsonType.number, some (4, 7), (9, 10), none, 0), some 1),
   (str2l "    \"b\": [", some (JsonType.arrStart, some (4, 7), (9, 10), some 6, 3), some 2),
   (str2l "        1,", some (JsonType.number, none, (8, 9), none, 0), some 3),
   (str2l "        2,", some (JsonType.number, none, (8, 9), none, 0), some 4),
   (str2l "        3", some (JsonType.number, none, (8, 9), none, 0), some 5),
   (str2l "    ]", some (JsonType.arrEnd, none, (4, 5), some 2, 0), some 6),
   (str2l "\x7d", some (JsonType.objEnd, none, (0, 1), some 0, 0), some 7)] := by rfl

/-- Differential validation of the annotator against the source semantics:
nested containers, an empty container, string/null/bool scalars. -/
theorem annotator_scenario_nested :
    (printJson [] (.obj [(str2l "k", .obj [(str2l "x", .arr []), (str2l "y", .str (str2l "s"))]), (str2l "z", .arr [.arr [.num 1], .obj [(str2l "w", .null)]]), (str2l "f", .bool true)]) true).map (List.map obsLine) = some
  [(str2l "\x7b", some (JsonType.objStart, none, (0, 1), some 14, 0), some 0),
   (str2l "    \"k\": \x7b", some (JsonType.objStart, some (4, 7), (9, 10), some 4, 0), some 1),
   (str2l "        \"x\": [],", some (JsonType.empty, some (8, 11), (13, 15), none, 0), some 2),
   (str2l "        \"y\": \"s\"", some (JsonType.string, some (8, 11), (13, 16), none, 0), some 3),
   (str2l "    \x7d,", some (JsonType.objEnd, none, (4, 5), some 1, 0), some 4),
   (str2l "    \"z\": [", some (JsonType.arrStart, some (4, 7), (9, 10), some 12, 2), some 5),
   (str2l "        [", some (JsonType.arrStart, none, (8, 9), some 8, 1), some 6),
   (str2l "            1", some (JsonType.number, none, (12, 13), none, 0), some 7),
   (str2l "        ],", some (JsonType.arrEnd, none, (8, 9), some 6, 0), some 8),
   (str2l "        \x7b", some (JsonType.objStart, none, (8, 9), some 11, 0), some 9),
   (str2l "            \"w\": null", some (JsonType.null, some (12, 15), (17, 21), none, 0), some 10),
   (str2l "        \x7d", some (JsonType.objEnd, none, (8, 9), some 9, 0), some 11),
   (str2l "    ],", some (JsonType.arrEnd, none, (4, 5), some 5, 0), some 12),
   (str2l "    \"f\": true", some (JsonType.bool, some (4, 7), (9, 13), none, 0), some 13),
   (str2l "\x7d", some (JsonType.objEnd, none, (0, 1), some 0, 0), some 14)] := by rfl

/-- Differential validation of the annotator against the source semantics:
the flush=False merge with one unterminated prior buffer line. -/
theorem annotator_scenario_merge :
    (printJson [mkLine (str2l "PRE: ")] (.obj [(str2l "a", .num 1), (str2l "b", .arr [.num 1, .num 2, .num 3])]) false).map (List.map obsLine) = some
  [(str2l "PRE: \x7b", some (JsonType.objStart, none, (5, 6), some 8, 0), some 0),
   (str2l "    \"a\": 1,", some (JsonType.number, some (4, 7), (9, 10), none, 0), some 1),
   (str2l "    \"b\": [", some (JsonType.arrStart, some (4, 7), (9, 10), some 7, 3), some 2),
   (str2l "        1,", some (JsonType.number, none, (8, 9), none, 0), some 3),
   (str2l "        2,", some (JsonType.number, none, (8, 9), none, 0), some 4),
   (str2l "        3", some (JsonType.number, none, (8, 9), none, 0), some 5),
   (str2l "    ]", some (JsonType.arrEnd, none, (4, 5), some 2, 0), some 6),
   (str2l "\x7d", some (JsonType.objEnd, none, (0, 1), some 0, 0), some 7)] := by rfl

/-- Differential validation of `add_color_span` against the source semantics
on ordinary, empty, zero-width, negative-width and duplicate-key inputs. -/
theorem add_color_span_scenarios :
    addColorSpan [((0 : Int), (1 : Int)), ((4 : Int), (7 : Int)), ((9 : Int), (1 : Int))] 5 4 3
      = [((0 : Int), (1 : Int)), ((4 : Int), (5 : Int)), ((7 : Int), (7 : Int)), ((9 : Int), (1 : Int))]
    ∧ addColorSpan [] 2 5 0
      = [((0 : Int), (1 : Int)), ((5 : Int), (2 : Int)), ((5 : Int), (1 : Int))]
    ∧ addColorSpan [((0 : Int), (1 : Int))] 2 5 (-3)
      = [((0 : Int), (1 : Int)), ((2 : Int), (1 : Int)), ((5 : Int), (2 : Int))]
    ∧ addColorSpan [((3 : Int), (2 : Int))] 9 0 2
      = [((0 : Int), (9 : Int)), ((2 : Int), (1 : Int)), ((3 : Int), (2 : Int))]
    ∧ addColorSpan [((0 : Int), (1 : Int)), ((2 : Int), (3 : Int)), ((2 : Int), (4 : Int)), ((8 : Int), (1 : Int))] 6 2 6
      = [((0 : Int), (1 : Int)), ((2 : Int), (6 : Int)), ((8 : Int), (1 : Int)), ((8 : Int), (1 : Int))] := by
  decide

/-- Differential validation of `Line.draw` against the source semantics: an
expanded array start with a cursor overlay on the key span. -/
theorem draw_scenario_array_expanded :
    drawLine drawLineArrExp 2 40 (some (4, 7)) = { line := drawLineArrExp, calls :=
    [{ row := 2, col := 0, text := str2l "    ", colorPair := 1 },
     { row := 2, col := 4, text := str2l "\"b\"", colorPair := 2 },
     { row := 2, col := 7, text := str2l ": ", colorPair := 1 },
     { row := 2, col := 9, text := str2l "[", colorPair := 8 },
     { row := 2, col := 10, text := str2l " count: 3", colorPair := 9 },
     { row := 2, col := 19, text := str2l "                     ", colorPair := 1 }] } := by rfl

/-- Differential validation of `Line.draw`: a collapsed array start rendered
as its summary token. -/
theorem draw_scenario_array_collapsed :
    drawLine drawLineArrCol 0 25 none = { line := drawLineArrCol, calls :=
    [{ row := 0, col := 0, text := str2l "    \"b\": ", colorPair := 1 },
     { row := 0, col := 9, text := str2l "[", colorPair := 8 },
     { row := 0, col := 10, text := str2l " ", colorPair := 1 },
     { row := 0, col := 11, text := str2l "… count: 3", colorPair := 9 },
     { row := 0, col := 21, text := str2l " ", colorPair := 1 },
     { row := 0, col := 22, text := str2l "]", colorPair := 8 },
     { row := 0, col := 23, text := str2l "  ", colorPair := 1 }] } := by rfl

/-- Differential validation of `Line.draw`: a string line with horizontal
offset 10 elided after the opening quote and truncated at width 30. -/
theorem draw_scenario_string_offset :
    drawLine drawLineStrOff 1 30 none = { line := drawLineStrOff, calls :=
    [{ row := 1, col := 0, text := str2l "    \"k\": ", colorPair := 1 },
     { row := 1, col := 9, text := str2l "\"", colorPair := 3 },
     { row := 1, col := 10, text := str2l "[…]", colorPair := 5 },
     { row := 1, col := 13, text := str2l "klmnopqrstuvwx", colorPair := 3 },
     { row := 1, col := 27, text := str2l "[…]", colorPair := 5 }] } := by rfl

/-- Differential validation of `Line.draw`: a collapsed object start with a
cursor overlay on the value span. -/
theorem draw_scenario_object_collapsed :
    drawLine drawLineObjCol 5 20 (some (0, 1)) = { line := drawLineObjCol, calls :=
    [{ row := 5, col := 0, text := str2l "\x7b", colorPair := 2 },
     { row := 5, col := 1, text := str2l " ", colorPair := 1 },
     { row := 5, col := 2, text := str2l "…", colorPair := 9 },
     { row := 5, col := 3, text := str2l " ", colorPair := 1 },
     { row := 5, col := 4, text := str2l "\x7d", colorPair := 8 },
     { row := 5, col := 5, text := str2l "               ", colorPair := 1 }] } := by rfl

/-- Differential validation of the annotator's regex misfire semantics: a
string array element containing an escaped quote followed by a colon makes
the lazy key-value pattern close its key group at the escaped quote, so the
line is classified as a number with bogus spans — yet the child count, which
scans raw lines, still equals the source list length 2. -/
theorem annotator_scenario_misfire :
    (printJson [] (.arr [.str (str2l "a\": x"), .str (str2l "plain")]) true).map
        (List.map obsLine) = some
  [(str2l "[", some (JsonType.arrStart, none, (0, 1), some 3, 2), some 0),
   (str2l "    \"a\\\": x\",", some (JsonType.number, some (4, 8), (10, 12), none, 0), some 1),
   (str2l "    \"plain\"", some (JsonType.string, none, (4, 11), none, 0), some 2),
   (str2l "]", some (JsonType.arrEnd, none, (0, 1), some 0, 0), some 3)] := by rfl

/-- Differential validation of the `str.splitlines` model on mixed line
boundaries, the empty string, a lone newline, a vertical tab and an empty
middle line. -/
theorem splitlines_scenarios :
    pySplitlines (str2l "a\r\nb\rc\n") = [str2l "a", str2l "b", str2l "c"]
    ∧ pySplitlines (str2l "") = []
    ∧ pySplitlines (str2l "\n") = [str2l ""]
    ∧ pySplitlines (str2l "x\x0bq") = [str2l "x", str2l "q"]
    ∧ pySplitlines (str2l "ab\n\ncd") = [str2l "ab", str2l "", str2l "cd"] := by decide

end ApiTool
